import Mathlib

/-!
Verification of the pin-lowering engine of `nmigen/vendor/xilinx_7series.py`
(class `Xilinx7SeriesPlatform`): the private helper `_get_xdr_buffer` and the
eight public buffer entry points `get_input`, `get_output`, `get_tristate`,
`get_input_output`, `get_diff_input`, `get_diff_output`, `get_diff_tristate`
and `get_diff_input_output`.

The embedding models an nmigen `Module` as an explicit state (`St`) holding the
ordered list of instantiated submodules, the ordered list of combinational
assignments, and a counter for freshly allocated `Signal`s.  Each Python helper
becomes a Lean function threading that state; fallible paths (the
`_check_feature` rejection, the `assert False` on an invalid data-rate mode,
and use of an unbound local) return `Except`.
-/

set_option linter.unusedVariables false

namespace X7

/-- Pin direction, the `dir` field of an nmigen `Pin`: one of the strings
`"i"`, `"o"`, `"oe"`, `"io"`. -/
inductive Dir
  | i
  | o
  | oe
  | io
deriving DecidableEq, Repr

/-- The Python substring test `"i" in pin.dir` over the four direction
strings: true exactly for `"i"` and `"io"`. -/
@[simp] def hasI : Dir → Bool
  | .i => true
  | .io => true
  | _ => false

/-- The Python substring test `"o" in pin.dir`; note that `"o" in "oe"` is
true, so this holds for `"o"`, `"oe"` and `"io"`. -/
@[simp] def hasO : Dir → Bool
  | .o => true
  | .oe => true
  | .io => true
  | _ => false

/-- The Python test `pin.dir in ("oe", "io")`. -/
@[simp] def hasT : Dir → Bool
  | .oe => true
  | .io => true
  | _ => false

/-- The abstract pin record: name, bit width, direction and data-rate mode
(`xdr`: 0 = combinational, 1 = single-edge register, 2 = DDR). -/
structure Pin where
  name : String
  width : Nat
  dir : Dir
  xdr : Nat
deriving DecidableEq, Repr

/-- Identity of a signal: either one of the fields of the pin record, an
external port wire, or a freshly allocated intermediate signal. -/
inductive SigId
  | pinI
  | pinI0
  | pinI1
  | pinO
  | pinO0
  | pinO1
  | pinOE
  | pinIClk
  | pinOClk
  | extPort
  | extPortP
  | extPortN
  | fresh (n : Nat)
deriving DecidableEq, Repr

/-- A signal: identity, bit width, name, and nmigen attributes. -/
structure Sig where
  id : SigId
  width : Nat
  name : String
  attrs : List (String × String)
deriving DecidableEq, Repr

/-- The signal `pin.i` (one vector, used when `xdr < 2`). -/
def Pin.iSig (p : Pin) : Sig := ⟨.pinI, p.width, p.name ++ "__i", []⟩

/-- The DDR phase signal `pin.i0`. -/
def Pin.i0Sig (p : Pin) : Sig := ⟨.pinI0, p.width, p.name ++ "__i0", []⟩

/-- The DDR phase signal `pin.i1`. -/
def Pin.i1Sig (p : Pin) : Sig := ⟨.pinI1, p.width, p.name ++ "__i1", []⟩

/-- The signal `pin.o` (one vector, used when `xdr < 2`). -/
def Pin.oSig (p : Pin) : Sig := ⟨.pinO, p.width, p.name ++ "__o", []⟩

/-- The DDR phase signal `pin.o0`. -/
def Pin.o0Sig (p : Pin) : Sig := ⟨.pinO0, p.width, p.name ++ "__o0", []⟩

/-- The DDR phase signal `pin.o1`. -/
def Pin.o1Sig (p : Pin) : Sig := ⟨.pinO1, p.width, p.name ++ "__o1", []⟩

/-- The 1-bit output-enable signal `pin.oe`. -/
def Pin.oeSig (p : Pin) : Sig := ⟨.pinOE, 1, p.name ++ "__oe", []⟩

/-- The input clock `pin.i_clk`. -/
def Pin.iClk (p : Pin) : Sig := ⟨.pinIClk, 1, p.name ++ "__i_clk", []⟩

/-- The output clock `pin.o_clk`. -/
def Pin.oClk (p : Pin) : Sig := ⟨.pinOClk, 1, p.name ++ "__o_clk", []⟩

/-- A value expression appearing in a port map or a combinational assignment:
a whole signal, a bitwise complement `~v`, a single-bit slice `v[n]`, or a
constant. -/
inductive Val
  | sig (s : Sig)
  | not (v : Val)
  | idx (v : Val) (n : Nat)
  | const (n : Nat)
deriving DecidableEq, Repr

/-- Width of a value expression (a slice is one bit wide; `Const(0)` and
`Const(1)` are one bit wide). -/
def Val.width : Val → Nat
  | .sig s => s.width
  | .not v => v.width
  | .idx _ _ => 1
  | .const n => max 1 n.size

/-- Does the value expression read the signal with the given identity? -/
def Val.mentions : Val → SigId → Bool
  | .sig s, j => s.id == j
  | .not v, j => v.mentions j
  | .idx v _, j => v.mentions j
  | .const _, _ => false

/-- A parameter value of a primitive instance (string or integer literal). -/
inductive ParamVal
  | pstr (s : String)
  | pnum (n : Int)
deriving DecidableEq, Repr

/-- A primitive instantiation record: primitive kind, parameter map and port
map, in source order. -/
structure PrimInstance where
  kind : String
  params : List (String × ParamVal)
  ports : List (String × Val)
deriving DecidableEq, Repr

/-- Does any port of the instance read the signal with the given identity? -/
def instMentions (inst : PrimInstance) (j : SigId) : Bool :=
  inst.ports.any (fun p => p.2.mentions j)

/-- The accumulating module: ordered submodule instances (with optional
submodule name), ordered combinational assignments (left-hand side paired
with right-hand side), and the fresh-signal counter. -/
structure St where
  submodules : List (Option String × PrimInstance)
  comb : List (Val × Val)
  fresh : Nat
deriving DecidableEq, Repr

/-- The empty module a lowering call starts from. -/
def St.empty : St := ⟨[], [], 0⟩

/-- Append an instance, as `m.submodules += Instance(...)` or
`m.submodules[name] = Instance(...)`. -/
def St.addSub (m : St) (nm : Option String) (inst : PrimInstance) : St :=
  { m with submodules := m.submodules ++ [(nm, inst)] }

/-- Append a combinational assignment, as `m.d.comb += lhs.eq(rhs)`. -/
def St.addComb (m : St) (lhs rhs : Val) : St :=
  { m with comb := m.comb ++ [(lhs, rhs)] }

/-- Allocate a fresh `Signal` of the given width, name and attributes. -/
def St.freshSig (m : St) (w : Nat) (nm : String) (attrs : List (String × String)) :
    Sig × St :=
  (⟨.fresh m.fresh, w, nm, attrs⟩, { m with fresh := m.fresh + 1 })

/-- Attributes placed on the per-bit flip-flop output signal `_q` inside
`get_dff`: `IOB = TRUE` and `DONT_TOUCH = TRUE`. -/
def dffAttrs : List (String × String) := [("IOB", "TRUE"), ("DONT_TOUCH", "TRUE")]

/-- The per-bit flip-flop output signal `_q` allocated with fresh counter `n`. -/
def dffQS (n : Nat) : Sig := ⟨.fresh n, 1, "_q", dffAttrs⟩

/-- The `FDCE` instance built by one iteration of `get_dff`: clock `i_C`,
clock-enable `i_CE` tied to `Const(1)`, asynchronous clear `i_CLR` tied to
`Const(0)`, data `i_D`, output `o_Q`. -/
def fdce (clk d : Val) (q : Sig) : PrimInstance :=
  ⟨"FDCE", [],
   [("i_C", clk), ("i_CE", .const 1), ("i_CLR", .const 0), ("i_D", d),
    ("o_Q", .sig q)]⟩

/-- The `IDDR` instance built by one iteration of `get_iddr`. -/
def iddrInst (clk d q1 q2 : Val) : PrimInstance :=
  ⟨"IDDR",
   [("p_DDR_CLK_EDGE", .pstr "SAME_EDGE_PIPELINED"), ("p_SRTYPE", .pstr "ASYNC"),
    ("p_INIT_Q1", .pnum 0), ("p_INIT_Q2", .pnum 0)],
   [("i_C", clk), ("i_CE", .const 1), ("i_S", .const 0), ("i_R", .const 0),
    ("i_D", d), ("o_Q1", q1), ("o_Q2", q2)]⟩

/-- The `ODDR` instance built by one iteration of `get_oddr`. -/
def oddrInst (clk d1 d2 q : Val) : PrimInstance :=
  ⟨"ODDR",
   [("p_DDR_CLK_EDGE", .pstr "SAME_EDGE"), ("p_SRTYPE", .pstr "ASYNC"),
    ("p_INIT", .pnum 0)],
   [("i_C", clk), ("i_CE", .const 1), ("i_S", .const 0), ("i_R", .const 0),
    ("i_D1", d1), ("i_D2", d2), ("o_Q", q)]⟩

/-- One iteration of the loop in `get_dff`: allocate `_q`, instantiate the
`FDCE`, then add `q[bit].eq(_q)`. -/
def dffStep (clk d : Val) (q : Sig) (m : St) (bit : Nat) : St :=
  let p := m.freshSig 1 "_q" dffAttrs
  let m := p.2.addSub none (fdce clk (d.idx bit) p.1)
  m.addComb ((Val.sig q).idx bit) (.sig p.1)

/-- `get_dff(clk, d, q)`: one `FDCE` per bit of `q`, each output fed to the
matching bit of `q` combinationally. -/
def get_dff (m : St) (clk d : Val) (q : Sig) : St :=
  (List.range q.width).foldl (dffStep clk d q) m

/-- One iteration of the loop in `get_iddr`. -/
def iddrStep (clk d : Val) (q1 q2 : Sig) (m : St) (bit : Nat) : St :=
  m.addSub none
    (iddrInst clk (d.idx bit) ((Val.sig q1).idx bit) ((Val.sig q2).idx bit))

/-- `get_iddr(clk, d, q1, q2)`: one `IDDR` per bit of `q1`. -/
def get_iddr (m : St) (clk d : Val) (q1 q2 : Sig) : St :=
  (List.range q1.width).foldl (iddrStep clk d q1 q2) m

/-- One iteration of the loop in `get_oddr`. -/
def oddrStep (clk : Val) (d1 d2 : Sig) (q : Sig) (m : St) (bit : Nat) : St :=
  m.addSub none
    (oddrInst clk ((Val.sig d1).idx bit) ((Val.sig d2).idx bit)
      ((Val.sig q).idx bit))

/-- `get_oddr(clk, d1, d2, q)`: one `ODDR` per bit of `q`. -/
def get_oddr (m : St) (clk : Val) (d1 d2 : Sig) (q : Sig) : St :=
  (List.range q.width).foldl (oddrStep clk d1 d2 q) m

/-- `get_ineg(y, invert)`: when `invert` is set, allocate `a = Signal.like(y,
name_suffix="_n")`, add `y.eq(~a)` and return `a`; otherwise return `y`
unchanged. -/
def get_ineg (m : St) (y : Sig) (invert : Bool) : Sig × St :=
  if invert then
    let p := m.freshSig y.width (y.name ++ "_n") []
    (p.1, p.2.addComb (.sig y) (.not (.sig p.1)))
  else
    (y, m)

/-- `get_oneg(a, invert)`: when `invert` is set, allocate `y = Signal.like(a,
name_suffix="_n")`, add `y.eq(~a)` and return `y`; otherwise return `a`
unchanged. -/
def get_oneg (m : St) (a : Sig) (invert : Bool) : Sig × St :=
  if invert then
    let p := m.freshSig a.width (a.name ++ "_n") []
    (p.1, p.2.addComb (.sig p.1) (.not (.sig a)))
  else
    (a, m)

/-- The signal triple returned by `_get_xdr_buffer`; each member is `None` or
a value expression (`t` is the expression `~pin.oe` itself when `xdr == 0`). -/
structure Triple where
  i : Option Val
  o : Option Val
  t : Option Val
deriving DecidableEq, Repr

/-- The ways a lowering call can fail: a `ConfigurationError` raised by the
feature check (carrying the feature description and the pin name), the
`assert False` branch of `_get_xdr_buffer`, or a Python unbound-local /
`None`-subscript crash. -/
inductive LowerErr
  | configError (feature : String) (pinName : String)
  | assertFalse
  | unboundLocal
deriving DecidableEq, Repr

/-- `_get_xdr_buffer(m, pin, i_invert, o_invert)`.  Polarity-normalises the
pin-side signals, allocates the raw `i`/`o`/`t` signals according to the
direction, then wires the register topology selected by `pin.xdr`, returning
the raw triple.  A `pin.xdr` outside `{0, 1, 2}` hits `assert False`. -/
def xdr_buffer (m : St) (pin : Pin) (i_invert : Bool) (o_invert : Bool) :
    Except LowerErr (St × Triple) :=
  -- if "i" in pin.dir: pin_i / (pin_i0, pin_i1) = get_ineg(...)
  let ri : Option Sig × Option Sig × Option Sig × St :=
    if hasI pin.dir then
      if pin.xdr < 2 then
        let p := get_ineg m pin.iSig i_invert
        (some p.1, none, none, p.2)
      else if pin.xdr = 2 then
        let p0 := get_ineg m pin.i0Sig i_invert
        let p1 := get_ineg p0.2 pin.i1Sig i_invert
        (none, some p0.1, some p1.1, p1.2)
      else (none, none, none, m)
    else (none, none, none, m)
  let pin_i := ri.1
  let pin_i0 := ri.2.1
  let pin_i1 := ri.2.2.1
  let m := ri.2.2.2
  -- if "o" in pin.dir: pin_o / (pin_o0, pin_o1) = get_oneg(...)
  let ro : Option Sig × Option Sig × Option Sig × St :=
    if hasO pin.dir then
      if pin.xdr < 2 then
        let p := get_oneg m pin.oSig o_invert
        (some p.1, none, none, p.2)
      else if pin.xdr = 2 then
        let p0 := get_oneg m pin.o0Sig o_invert
        let p1 := get_oneg p0.2 pin.o1Sig o_invert
        (none, some p0.1, some p1.1, p1.2)
      else (none, none, none, m)
    else (none, none, none, m)
  let pin_o := ro.1
  let pin_o0 := ro.2.1
  let pin_o1 := ro.2.2.1
  let m := ro.2.2.2
  -- i = o = t = None, then the conditional Signal(...) allocations
  let ai : Option Sig × St :=
    if hasI pin.dir then
      let p := m.freshSig pin.width (pin.name ++ "_xdr_i") []
      (some p.1, p.2)
    else (none, m)
  let i := ai.1
  let m := ai.2
  let ao : Option Sig × St :=
    if hasO pin.dir then
      let p := m.freshSig pin.width (pin.name ++ "_xdr_o") []
      (some p.1, p.2)
    else (none, m)
  let o := ao.1
  let m := ao.2
  let au : Option Sig × St :=
    if hasT pin.dir then
      let p := m.freshSig 1 (pin.name ++ "_xdr_t") []
      (some p.1, p.2)
    else (none, m)
  let t := au.1
  let m := au.2
  if pin.xdr = 0 then
    -- passthrough: i = pin_i, o = pin_o, t = ~pin.oe
    .ok (m, ⟨pin_i.map Val.sig, pin_o.map Val.sig,
             if hasT pin.dir then some (Val.not (.sig pin.oeSig)) else none⟩)
  else if pin.xdr = 1 then
    let mi : Except LowerErr St :=
      if hasI pin.dir then
        match i, pin_i with
        | some isg, some pisg => .ok (get_dff m (Val.sig pin.iClk) (.sig isg) pisg)
        | _, _ => .error .unboundLocal
      else .ok m
    match mi with
    | .error e => .error e
    | .ok m =>
      let mo : Except LowerErr St :=
        if hasO pin.dir then
          match o, pin_o with
          | some osg, some posg => .ok (get_dff m (Val.sig pin.oClk) (.sig posg) osg)
          | _, _ => .error .unboundLocal
        else .ok m
      match mo with
      | .error e => .error e
      | .ok m =>
        let mt : Except LowerErr St :=
          if hasT pin.dir then
            match t with
            | some tsg => .ok (get_dff m (Val.sig pin.oClk) (.not (.sig pin.oeSig)) tsg)
            | none => .error .unboundLocal
          else .ok m
        match mt with
        | .error e => .error e
        | .ok m => .ok (m, ⟨i.map Val.sig, o.map Val.sig, t.map Val.sig⟩)
  else if pin.xdr = 2 then
    let mi : Except LowerErr St :=
      if hasI pin.dir then
        match i, pin_i0, pin_i1 with
        | some isg, some p0, some p1 =>
          .ok (get_iddr m (Val.sig pin.iClk) (.sig isg) p0 p1)
        | _, _, _ => .error .unboundLocal
      else .ok m
    match mi with
    | .error e => .error e
    | .ok m =>
      let mo : Except LowerErr St :=
        if hasO pin.dir then
          match o, pin_o0, pin_o1 with
          | some osg, some p0, some p1 =>
            .ok (get_oddr m (Val.sig pin.oClk) p0 p1 osg)
          | _, _, _ => .error .unboundLocal
        else .ok m
      match mo with
      | .error e => .error e
      | .ok m =>
        let mt : Except LowerErr St :=
          if hasT pin.dir then
            match t with
            | some tsg => .ok (get_dff m (Val.sig pin.oClk) (.not (.sig pin.oeSig)) tsg)
            | none => .error .unboundLocal
          else .ok m
        match mt with
        | .error e => .error e
        | .ok m => .ok (m, ⟨i.map Val.sig, o.map Val.sig, t.map Val.sig⟩)
  else
    .error .assertFalse

/-- Modelled from the spec: the platform feature validator `_check_feature`
lives in the build support code (`TemplatedPlatform`), which is not part of
this file's source; per the spec it runs before anything is built and rejects
a pin whose data-rate mode is not among the valid ones for the requested
buffer kind, raising a `ConfigurationError` naming the pin and the feature.
All attributes are accepted (`valid_attrs=True`). -/
def checkFeature (feature : String) (pin : Pin) (attrs : List (String × String))
    (validXdrs : List Nat) : Except LowerErr Unit :=
  if pin.xdr ∈ validXdrs then .ok () else .error (.configError feature pin.name)

/-- The per-bit buffer-instantiation loop shared by the entry points:
`for bit in range(n): m.submodules[name] = Instance(...)`. -/
def addInstLoop (f : Nat → Option String × PrimInstance) (n : Nat) (m : St) : St :=
  (List.range n).foldl (fun m bit => m.addSub (f bit).1 (f bit).2) m

/-- `get_input`: feature check, xdr buffer with `i_invert=invert`, then one
`IBUF` per bit of the port. -/
def get_input (pin : Pin) (port : Sig) (attrs : List (String × String))
    (invert : Bool) : Except LowerErr St :=
  match checkFeature "single-ended input" pin attrs [0, 1, 2] with
  | .error e => .error e
  | .ok _ =>
    match xdr_buffer St.empty pin invert false with
    | .error e => .error e
    | .ok (m, tri) =>
      match tri.i with
      | none => .error .unboundLocal
      | some iv =>
        .ok (addInstLoop (fun bit =>
          (some (pin.name ++ "_" ++ toString bit),
           ⟨"IBUF", [],
            [("i_I", (Val.sig port).idx bit), ("o_O", iv.idx bit)]⟩)) port.width m)

/-- `get_output`: feature check, xdr buffer with `o_invert=invert`, then one
`OBUF` per bit of the port. -/
def get_output (pin : Pin) (port : Sig) (attrs : List (String × String))
    (invert : Bool) : Except LowerErr St :=
  match checkFeature "single-ended output" pin attrs [0, 1, 2] with
  | .error e => .error e
  | .ok _ =>
    match xdr_buffer St.empty pin false invert with
    | .error e => .error e
    | .ok (m, tri) =>
      match tri.o with
      | none => .error .unboundLocal
      | some ov =>
        .ok (addInstLoop (fun bit =>
          (some (pin.name ++ "_" ++ toString bit),
           ⟨"OBUF", [],
            [("i_I", ov.idx bit), ("o_O", (Val.sig port).idx bit)]⟩)) port.width m)

/-- `get_tristate`: feature check, xdr buffer with `o_invert=invert`, then one
`OBUFT` per bit of the port, every one consuming the whole `t`. -/
def get_tristate (pin : Pin) (port : Sig) (attrs : List (String × String))
    (invert : Bool) : Except LowerErr St :=
  match checkFeature "single-ended tristate" pin attrs [0, 1, 2] with
  | .error e => .error e
  | .ok _ =>
    match xdr_buffer St.empty pin false invert with
    | .error e => .error e
    | .ok (m, tri) =>
      match tri.o, tri.t with
      | some ov, some tv =>
        .ok (addInstLoop (fun bit =>
          (some (pin.name ++ "_" ++ toString bit),
           ⟨"OBUFT", [],
            [("i_T", tv), ("i_I", ov.idx bit),
             ("o_O", (Val.sig port).idx bit)]⟩)) port.width m)
      | _, _ => .error .unboundLocal

/-- `get_input_output`: feature check, xdr buffer with both inversion flags
set to the single `invert` argument, then one `IOBUF` per bit of the port. -/
def get_input_output (pin : Pin) (port : Sig) (attrs : List (String × String))
    (invert : Bool) : Except LowerErr St :=
  match checkFeature "single-ended input/output" pin attrs [0, 1, 2] with
  | .error e => .error e
  | .ok _ =>
    match xdr_buffer St.empty pin invert invert with
    | .error e => .error e
    | .ok (m, tri) =>
      match tri.i, tri.o, tri.t with
      | some iv, some ov, some tv =>
        .ok (addInstLoop (fun bit =>
          (some (pin.name ++ "_" ++ toString bit),
           ⟨"IOBUF", [],
            [("i_T", tv), ("i_I", ov.idx bit), ("o_O", iv.idx bit),
             ("io_IO", (Val.sig port).idx bit)]⟩)) port.width m)
      | _, _, _ => .error .unboundLocal

/-- `get_diff_input`: one `IBUFDS` per bit, consuming the true/complement
port pair at that bit. -/
def get_diff_input (pin : Pin) (p_port n_port : Sig)
    (attrs : List (String × String)) (invert : Bool) : Except LowerErr St :=
  match checkFeature "differential input" pin attrs [0, 1, 2] with
  | .error e => .error e
  | .ok _ =>
    match xdr_buffer St.empty pin invert false with
    | .error e => .error e
    | .ok (m, tri) =>
      match tri.i with
      | none => .error .unboundLocal
      | some iv =>
        .ok (addInstLoop (fun bit =>
          (some (pin.name ++ "_" ++ toString bit),
           ⟨"IBUFDS", [],
            [("i_I", (Val.sig p_port).idx bit), ("i_IB", (Val.sig n_port).idx bit),
             ("o_O", iv.idx bit)]⟩)) p_port.width m)

/-- `get_diff_output`: one `OBUFDS` per bit, driving the true/complement
port pair at that bit. -/
def get_diff_output (pin : Pin) (p_port n_port : Sig)
    (attrs : List (String × String)) (invert : Bool) : Except LowerErr St :=
  match checkFeature "differential output" pin attrs [0, 1, 2] with
  | .error e => .error e
  | .ok _ =>
    match xdr_buffer St.empty pin false invert with
    | .error e => .error e
    | .ok (m, tri) =>
      match tri.o with
      | none => .error .unboundLocal
      | some ov =>
        .ok (addInstLoop (fun bit =>
          (some (pin.name ++ "_" ++ toString bit),
           ⟨"OBUFDS", [],
            [("i_I", ov.idx bit), ("o_O", (Val.sig p_port).idx bit),
             ("o_OB", (Val.sig n_port).idx bit)]⟩)) p_port.width m)

/-- `get_diff_tristate`: one `OBUFTDS` per bit, every one consuming the whole
`t`. -/
def get_diff_tristate (pin : Pin) (p_port n_port : Sig)
    (attrs : List (String × String)) (invert : Bool) : Except LowerErr St :=
  match checkFeature "differential tristate" pin attrs [0, 1, 2] with
  | .error e => .error e
  | .ok _ =>
    match xdr_buffer St.empty pin false invert with
    | .error e => .error e
    | .ok (m, tri) =>
      match tri.o, tri.t with
      | some ov, some tv =>
        .ok (addInstLoop (fun bit =>
          (some (pin.name ++ "_" ++ toString bit),
           ⟨"OBUFTDS", [],
            [("i_T", tv), ("i_I", ov.idx bit),
             ("o_O", (Val.sig p_port).idx bit),
             ("o_OB", (Val.sig n_port).idx bit)]⟩)) p_port.width m)
      | _, _ => .error .unboundLocal

/-- `get_diff_input_output`: one `IOBUFDS` per bit, every one consuming the
whole `t` and the true/complement pair at that bit. -/
def get_diff_input_output (pin : Pin) (p_port n_port : Sig)
    (attrs : List (String × String)) (invert : Bool) : Except LowerErr St :=
  match checkFeature "differential input/output" pin attrs [0, 1, 2] with
  | .error e => .error e
  | .ok _ =>
    match xdr_buffer St.empty pin invert invert with
    | .error e => .error e
    | .ok (m, tri) =>
      match tri.i, tri.o, tri.t with
      | some iv, some ov, some tv =>
        .ok (addInstLoop (fun bit =>
          (some (pin.name ++ "_" ++ toString bit),
           ⟨"IOBUFDS", [],
            [("i_T", tv), ("i_I", ov.idx bit), ("o_O", iv.idx bit),
             ("io_IO", (Val.sig p_port).idx bit),
             ("io_IOB", (Val.sig n_port).idx bit)]⟩)) p_port.width m)
      | _, _, _ => .error .unboundLocal

/-! ### Closed forms of the emission loops -/

/-- The instances emitted by `get_dff` for `n` bits, starting at fresh
counter `k`. -/
def dffList (clk d : Val) (k n : Nat) : List (Option String × PrimInstance) :=
  (List.range n).map (fun b => (none, fdce clk (d.idx b) (dffQS (k + b))))

/-- The combinational assignments emitted by `get_dff` for `n` bits of `q`,
starting at fresh counter `k`. -/
def dffCombs (q : Sig) (k n : Nat) : List (Val × Val) :=
  (List.range n).map (fun b => ((Val.sig q).idx b, Val.sig (dffQS (k + b))))

/-- The instances emitted by `get_iddr` for `n` bits. -/
def iddrList (clk d : Val) (q1 q2 : Sig) (n : Nat) :
    List (Option String × PrimInstance) :=
  (List.range n).map (fun b =>
    (none, iddrInst clk (d.idx b) ((Val.sig q1).idx b) ((Val.sig q2).idx b)))

/-- The instances emitted by `get_oddr` for `n` bits. -/
def oddrList (clk : Val) (d1 d2 q : Sig) (n : Nat) :
    List (Option String × PrimInstance) :=
  (List.range n).map (fun b =>
    (none, oddrInst clk ((Val.sig d1).idx b) ((Val.sig d2).idx b)
      ((Val.sig q).idx b)))

/-- The instances emitted by the per-bit buffer loop. -/
def instList (f : Nat → Option String × PrimInstance) (n : Nat) :
    List (Option String × PrimInstance) :=
  (List.range n).map f

theorem dff_loop_eq (clk d : Val) (q : Sig) :
    ∀ (n : Nat) (m : St),
      (List.range n).foldl (dffStep clk d q) m =
        ⟨m.submodules ++ dffList clk d m.fresh n,
         m.comb ++ dffCombs q m.fresh n, m.fresh + n⟩ := by
  intro n
  induction n with
  | zero => intro m; simp [dffList, dffCombs]
  | succ n ih =>
    intro m
    rw [List.range_succ, List.foldl_append, ih]
    simp only [List.foldl_cons, List.foldl_nil, dffStep, St.freshSig, St.addSub,
      St.addComb, dffList, dffCombs, dffQS, List.range_succ, List.map_append,
      List.map_cons, List.map_nil, List.append_assoc, St.mk.injEq]
    refine ⟨trivial, trivial, ?_⟩
    omega

/-- Closed form of `get_dff`. -/
theorem get_dff_eq (m : St) (clk d : Val) (q : Sig) :
    get_dff m clk d q =
      ⟨m.submodules ++ dffList clk d m.fresh q.width,
       m.comb ++ dffCombs q m.fresh q.width, m.fresh + q.width⟩ :=
  dff_loop_eq clk d q q.width m

theorem iddr_loop_eq (clk d : Val) (q1 q2 : Sig) :
    ∀ (n : Nat) (m : St),
      (List.range n).foldl (iddrStep clk d q1 q2) m =
        { m with submodules := m.submodules ++ iddrList clk d q1 q2 n } := by
  intro n
  induction n with
  | zero => intro m; simp [iddrList]
  | succ n ih =>
    intro m
    rw [List.range_succ, List.foldl_append, ih]
    simp [iddrStep, St.addSub, iddrList, List.range_succ]

/-- Closed form of `get_iddr`: instances only, no assignments, no fresh
signals. -/
theorem get_iddr_eq (m : St) (clk d : Val) (q1 q2 : Sig) :
    get_iddr m clk d q1 q2 =
      { m with submodules := m.submodules ++ iddrList clk d q1 q2 q1.width } :=
  iddr_loop_eq clk d q1 q2 q1.width m

theorem oddr_loop_eq (clk : Val) (d1 d2 q : Sig) :
    ∀ (n : Nat) (m : St),
      (List.range n).foldl (oddrStep clk d1 d2 q) m =
        { m with submodules := m.submodules ++ oddrList clk d1 d2 q n } := by
  intro n
  induction n with
  | zero => intro m; simp [oddrList]
  | succ n ih =>
    intro m
    rw [List.range_succ, List.foldl_append, ih]
    simp [oddrStep, St.addSub, oddrList, List.range_succ]

/-- Closed form of `get_oddr`: instances only. -/
theorem get_oddr_eq (m : St) (clk : Val) (d1 d2 q : Sig) :
    get_oddr m clk d1 d2 q =
      { m with submodules := m.submodules ++ oddrList clk d1 d2 q q.width } :=
  oddr_loop_eq clk d1 d2 q q.width m

theorem instLoop_eq (f : Nat → Option String × PrimInstance) :
    ∀ (n : Nat) (m : St),
      addInstLoop f n m = { m with submodules := m.submodules ++ instList f n } := by
  intro n
  induction n with
  | zero => intro m; simp [addInstLoop, instList]
  | succ n ih =>
    intro m
    rw [addInstLoop, List.range_succ, List.foldl_append]
    rw [show (List.range n).foldl (fun m bit => m.addSub (f bit).1 (f bit).2) m
          = addInstLoop f n m from rfl, ih]
    simp [St.addSub, instList, List.range_succ]

@[simp] theorem dffList_length (clk d : Val) (k n : Nat) :
    (dffList clk d k n).length = n := by simp [dffList]

@[simp] theorem dffCombs_length (q : Sig) (k n : Nat) :
    (dffCombs q k n).length = n := by simp [dffCombs]

@[simp] theorem iddrList_length (clk d : Val) (q1 q2 : Sig) (n : Nat) :
    (iddrList clk d q1 q2 n).length = n := by simp [iddrList]

@[simp] theorem oddrList_length (clk : Val) (d1 d2 q : Sig) (n : Nat) :
    (oddrList clk d1 d2 q n).length = n := by simp [oddrList]

@[simp] theorem instList_length (f : Nat → Option String × PrimInstance) (n : Nat) :
    (instList f n).length = n := by simp [instList]

/-- Equation of `get_ineg` without inversion: the point is returned unchanged
and nothing is emitted. -/
theorem get_ineg_false (m : St) (y : Sig) : get_ineg m y false = (y, m) := rfl

/-- Equation of `get_ineg` with inversion: one fresh `_n` signal, one
combinational assignment `y.eq(~a)`, no instance. -/
theorem get_ineg_true (m : St) (y : Sig) :
    get_ineg m y true =
      (⟨.fresh m.fresh, y.width, y.name ++ "_n", []⟩,
       ⟨m.submodules,
        m.comb ++ [(.sig y, .not (.sig ⟨.fresh m.fresh, y.width, y.name ++ "_n", []⟩))],
        m.fresh + 1⟩) := rfl

/-- Equation of `get_oneg` without inversion. -/
theorem get_oneg_false (m : St) (a : Sig) : get_oneg m a false = (a, m) := rfl

/-- Equation of `get_oneg` with inversion: one fresh `_n` signal, one
combinational assignment `y.eq(~a)` with the fresh signal on the left. -/
theorem get_oneg_true (m : St) (a : Sig) :
    get_oneg m a true =
      (⟨.fresh m.fresh, a.width, a.name ++ "_n", []⟩,
       ⟨m.submodules,
        m.comb ++ [(.sig ⟨.fresh m.fresh, a.width, a.name ++ "_n", []⟩, .not (.sig a))],
        m.fresh + 1⟩) := rfl

/-! ### Claim C6: invalid data-rate modes hit the assertion -/

/-- C6: for every pin whose `dataRateMode` is outside `{0, 1, 2}`, the
register stage selector `_get_xdr_buffer` aborts with the `assert False`
internal-invariant failure and never falls back to a topology. -/
theorem c6_invalid_xdr_asserts (m : St) (pin : Pin) (ii oo : Bool)
    (h : pin.xdr ∉ ([0, 1, 2] : List Nat)) :
    xdr_buffer m pin ii oo = .error .assertFalse := by
  have hn : pin.xdr ≠ 0 ∧ pin.xdr ≠ 1 ∧ pin.xdr ≠ 2 := by simpa using h
  obtain ⟨h0, h1, h2⟩ := hn
  have hlt : ¬ pin.xdr < 2 := by omega
  simp [xdr_buffer, h0, h1, h2, hlt]

/-- Witness for C6 at a concrete invalid mode. -/
theorem c6_invalid_xdr_asserts_witness :
    (3 : Nat) ∉ ([0, 1, 2] : List Nat) ∧
      xdr_buffer St.empty ⟨"p", 1, Dir.io, 3⟩ true true = .error .assertFalse :=
  ⟨by decide, c6_invalid_xdr_asserts St.empty ⟨"p", 1, Dir.io, 3⟩ true true (by decide)⟩

/-! ### Claim C1: which of i, o, t are populated -/

/-- Counterexample to C1 as stated: for an `OutEnable` pin (mode 0) the
lowered triple does populate `o` (the tristate buffer needs the data), even
though the direction is neither `Out` nor `InOut`. -/
theorem c1_original_cex :
    (xdr_buffer St.empty ⟨"p", 1, Dir.oe, 0⟩ false false).map
        (fun r => r.2.o.isSome) = .ok true ∧
      Dir.oe ≠ Dir.o ∧ Dir.oe ≠ Dir.io := by
  refine ⟨rfl, by decide, by decide⟩

/-- C1 (amended): for every valid `(direction, dataRateMode)` pair, `i` is
populated iff the direction is `In` or `InOut`, `o` iff the direction is
`Out`, `OutEnable` or `InOut` (the `OutEnable` case is the amendment: the
Python substring test `"o" in "oe"` holds), and `t` iff the direction is
`OutEnable` or `InOut`; no other member is populated. -/
theorem c1_triple_population (name : String) (w : Nat) (dir : Dir) (xdr : Nat)
    (ii oo : Bool) (h : xdr ∈ ([0, 1, 2] : List Nat)) :
    ∃ st tri, xdr_buffer St.empty ⟨name, w, dir, xdr⟩ ii oo = .ok (st, tri) ∧
      (tri.i.isSome ↔ (dir = .i ∨ dir = .io)) ∧
      (tri.o.isSome ↔ (dir = .o ∨ dir = .oe ∨ dir = .io)) ∧
      (tri.t.isSome ↔ (dir = .oe ∨ dir = .io)) := by
  have h' : xdr = 0 ∨ xdr = 1 ∨ xdr = 2 := by simpa using h
  rcases h' with rfl | rfl | rfl <;> cases dir <;> cases ii <;> cases oo <;>
    refine ⟨_, _, rfl, ?_, ?_, ?_⟩ <;>
      simp [get_ineg, get_oneg, St.freshSig]

/-- Witness for C1 at a concrete valid pair. -/
theorem c1_triple_population_witness :
    (0 : Nat) ∈ ([0, 1, 2] : List Nat) ∧
      ∃ st tri, xdr_buffer St.empty ⟨"p", 2, Dir.oe, 0⟩ false false = .ok (st, tri) ∧
        (tri.i.isSome ↔ (Dir.oe = .i ∨ Dir.oe = .io)) ∧
        (tri.o.isSome ↔ (Dir.oe = .o ∨ Dir.oe = .oe ∨ Dir.oe = .io)) ∧
        (tri.t.isSome ↔ (Dir.oe = .oe ∨ Dir.oe = .io)) :=
  ⟨by decide, c1_triple_population "p" 2 Dir.oe 0 false false (by decide)⟩

/-! ### Claim C4: the polarity normalizer -/

/-- A bit-level environment: the value of every signal identity at every bit
position. -/
def Env : Type := SigId → Nat → Bool

/-- Bit `b` of a value expression under an environment (`~` complements the
bit, a slice `v[n]` reads bit `n` of `v`). -/
def evalBit (env : Env) : Val → Nat → Bool
  | .sig s, b => env s.id b
  | .not v, b => !(evalBit env v b)
  | .idx v n, _ => evalBit env v n
  | .const n, b => n.testBit b

/-- The environment satisfies a combinational assignment: both sides agree on
every bit of the left-hand side's width. -/
def combHolds (env : Env) (c : Val × Val) : Prop :=
  ∀ b < c.1.width, evalBit env c.1 b = evalBit env c.2 b

/-- C4: with `invert` false both normalizers return the original signal and
emit nothing; with `invert` true each allocates exactly one fresh signal and
binds one combinational inverter (and no primitive instance); and under any
environment satisfying the emitted inverter binding, the raw value XOR the
invert flag equals the exposed logical value at every bit, on the input path
(`get_ineg`, raw side returned) and the output path (`get_oneg`, raw side
returned) alike. -/
theorem c4_polarity (m : St) (y : Sig) (env : Env) (b : Nat) :
    (get_ineg m y false = (y, m) ∧ get_oneg m y false = (y, m)) ∧
    ((get_ineg m y true).2.submodules = m.submodules ∧
     (get_ineg m y true).2.fresh = m.fresh + 1 ∧
     (get_ineg m y true).2.comb =
       m.comb ++ [(.sig y, .not (.sig (get_ineg m y true).1))] ∧
     (get_oneg m y true).2.submodules = m.submodules ∧
     (get_oneg m y true).2.fresh = m.fresh + 1 ∧
     (get_oneg m y true).2.comb =
       m.comb ++ [(.sig (get_oneg m y true).1, .not (.sig y))]) ∧
    (combHolds env (.sig y, .not (.sig (get_ineg m y true).1)) → b < y.width →
      xor (evalBit env (.sig (get_ineg m y true).1) b) true
        = evalBit env (.sig y) b) ∧
    (xor (evalBit env (.sig (get_ineg m y false).1) b) false
        = evalBit env (.sig y) b) ∧
    (combHolds env (.sig (get_oneg m y true).1, .not (.sig y)) → b < y.width →
      xor (evalBit env (.sig (get_oneg m y true).1) b) true
        = evalBit env (.sig y) b) ∧
    (xor (evalBit env (.sig (get_oneg m y false).1) b) false
        = evalBit env (.sig y) b) := by
  refine ⟨⟨rfl, rfl⟩, ⟨rfl, rfl, rfl, rfl, rfl, rfl⟩, ?_, ?_, ?_, ?_⟩
  · intro hc hb
    have h := hc b (by simpa [Val.width] using hb)
    simp only [evalBit, get_ineg, St.freshSig, if_pos] at h ⊢
    cases hx : env (SigId.fresh m.fresh) b <;> simp_all
  · simp [evalBit, get_ineg]
  · intro hc hb
    have h := hc b (by simpa [Val.width, get_oneg, St.freshSig] using hb)
    simp only [evalBit, get_oneg, St.freshSig, if_pos] at h ⊢
    cases hx : env (SigId.fresh m.fresh) b <;> simp_all
  · simp [evalBit, get_oneg]

/-- A concrete 1-bit signal used by witnesses. -/
def yC : Sig := ⟨.pinI, 1, "y", []⟩

/-- A concrete environment used by witnesses: the pin input signal is all
ones, everything else all zeros. -/
def envC : Env := fun j _ => j == SigId.pinI

/-- Witness for C4 at a concrete signal, environment and bit. -/
theorem c4_polarity_witness :
    combHolds envC (.sig yC, .not (.sig (get_ineg St.empty yC true).1)) ∧
      (0 : Nat) < yC.width ∧
      xor (evalBit envC (.sig (get_ineg St.empty yC true).1) 0) true
        = evalBit envC (.sig yC) 0 :=
  ⟨by unfold combHolds; decide, by decide,
   ((c4_polarity St.empty yC envC 0).2.2.1 (by unfold combHolds; decide) (by decide))⟩

/-! ### Claim C7: the feature check precedes all building -/

/-- C7: in each of the eight entry points the feature-support check runs
first, so a pin whose data-rate mode is invalid makes the entry point return
the `ConfigurationError` (naming the feature and the pin) with no fragment —
no primitive or intermediate signal has been built.  Every entry point
declares data-rate modes 0, 1 and 2 as valid: the last conjunct shows the
check accepts any pin with such a mode. -/
theorem c7_check_first (pin pin2 : Pin) (port pp np : Sig)
    (attrs : List (String × String)) (inv : Bool)
    (h : pin.xdr ∉ ([0, 1, 2] : List Nat)) :
    get_input pin port attrs inv
        = .error (.configError "single-ended input" pin.name) ∧
    get_output pin port attrs inv
        = .error (.configError "single-ended output" pin.name) ∧
    get_tristate pin port attrs inv
        = .error (.configError "single-ended tristate" pin.name) ∧
    get_input_output pin port attrs inv
        = .error (.configError "single-ended input/output" pin.name) ∧
    get_diff_input pin pp np attrs inv
        = .error (.configError "differential input" pin.name) ∧
    get_diff_output pin pp np attrs inv
        = .error (.configError "differential output" pin.name) ∧
    get_diff_tristate pin pp np attrs inv
        = .error (.configError "differential tristate" pin.name) ∧
    get_diff_input_output pin pp np attrs inv
        = .error (.configError "differential input/output" pin.name) ∧
    (pin2.xdr ∈ ([0, 1, 2] : List Nat) →
      checkFeature "single-ended input" pin2 attrs [0, 1, 2] = .ok ()) := by
  refine ⟨?_, ?_, ?_, ?_, ?_, ?_, ?_, ?_, ?_⟩
  · simp [get_input, checkFeature, h]
  · simp [get_output, checkFeature, h]
  · simp [get_tristate, checkFeature, h]
  · simp [get_input_output, checkFeature, h]
  · simp [get_diff_input, checkFeature, h]
  · simp [get_diff_output, checkFeature, h]
  · simp [get_diff_tristate, checkFeature, h]
  · simp [get_diff_input_output, checkFeature, h]
  · intro hg; simp [checkFeature, hg]

/-- A concrete port signal of width 1 used by witnesses. -/
def portC : Sig := ⟨.extPort, 1, "port", []⟩

/-- A concrete true-side differential port of width 1. -/
def pPortC : Sig := ⟨.extPortP, 1, "port_p", []⟩

/-- A concrete complement-side differential port of width 1. -/
def nPortC : Sig := ⟨.extPortN, 1, "port_n", []⟩

/-- Witness for C7 at a concrete invalid-mode pin. -/
theorem c7_check_first_witness :
    (5 : Nat) ∉ ([0, 1, 2] : List Nat) ∧
    (get_input ⟨"p", 1, .i, 5⟩ portC [] false
        = .error (.configError "single-ended input" "p") ∧
     get_output ⟨"p", 1, .i, 5⟩ portC [] false
        = .error (.configError "single-ended output" "p") ∧
     get_tristate ⟨"p", 1, .i, 5⟩ portC [] false
        = .error (.configError "single-ended tristate" "p") ∧
     get_input_output ⟨"p", 1, .i, 5⟩ portC [] false
        = .error (.configError "single-ended input/output" "p") ∧
     get_diff_input ⟨"p", 1, .i, 5⟩ pPortC nPortC [] false
        = .error (.configError "differential input" "p") ∧
     get_diff_output ⟨"p", 1, .i, 5⟩ pPortC nPortC [] false
        = .error (.configError "differential output" "p") ∧
     get_diff_tristate ⟨"p", 1, .i, 5⟩ pPortC nPortC [] false
        = .error (.configError "differential tristate" "p") ∧
     get_diff_input_output ⟨"p", 1, .i, 5⟩ pPortC nPortC [] false
        = .error (.configError "differential input/output" "p") ∧
     (Pin.xdr ⟨"q", 1, .i, 1⟩ ∈ ([0, 1, 2] : List Nat) →
       checkFeature "single-ended input" ⟨"q", 1, .i, 1⟩ [] [0, 1, 2] = .ok ())) :=
  ⟨by decide,
   c7_check_first ⟨"p", 1, .i, 5⟩ ⟨"q", 1, .i, 1⟩ portC pPortC nPortC [] false (by decide)⟩

/-! ### Claim C8: inversion flags of the two paths -/

/-- Is a combinational assignment the binding emitted by `get_ineg` on a pin
input signal (whole pin `i`/`i0`/`i1` on the left-hand side)? -/
def combIsInegAssign : Val × Val → Bool
  | (.sig s, _) =>
    s.id == SigId.pinI || s.id == SigId.pinI0 || s.id == SigId.pinI1
  | _ => false

/-- Is a combinational assignment the binding emitted by `get_oneg` on a pin
output signal (complement of the whole pin `o`/`o0`/`o1` on the right-hand
side)? -/
def combIsOnegAssign : Val × Val → Bool
  | (_, .not (.sig s)) =>
    s.id == SigId.pinO || s.id == SigId.pinO0 || s.id == SigId.pinO1
  | _ => false

/-- The fragment inverts the input path: some assignment rebinds a pin input
signal through an inverter. -/
def iPathInverted (st : St) : Bool := st.comb.any combIsInegAssign

/-- The fragment inverts the output path. -/
def oPathInverted (st : St) : Bool := st.comb.any combIsOnegAssign

@[simp] theorem dffCombs_any_ineg (q : Sig) (k n : Nat) :
    (dffCombs q k n).any combIsInegAssign = false := by
  rw [List.any_eq_false]
  intro c hc
  simp only [dffCombs, List.mem_map, List.mem_range] at hc
  obtain ⟨b, _, rfl⟩ := hc
  simp [combIsInegAssign]

@[simp] theorem dffCombs_any_oneg (q : Sig) (k n : Nat) :
    (dffCombs q k n).any combIsOnegAssign = false := by
  rw [List.any_eq_false]
  intro c hc
  simp only [dffCombs, List.mem_map, List.mem_range] at hc
  obtain ⟨b, _, rfl⟩ := hc
  simp [combIsOnegAssign]

/-- The buffer loop leaves the assignment list unchanged. -/
theorem addInstLoop_comb (f : Nat → Option String × PrimInstance) (n : Nat) (m : St) :
    (addInstLoop f n m).comb = m.comb := by
  rw [instLoop_eq]

/-- Did a lowering produce a fragment whose two paths are inverted
differently? -/
def pathsDistinct (r : Except LowerErr St) : Bool :=
  match r with
  | .ok st => iPathInverted st != oPathInverted st
  | .error _ => false

/-- Counterexample to C8 as stated: for a concrete bidirectional pin, both
possible values of the single `invert` argument of the public bidirectional
entry points leave the two paths identically inverted — no public invocation
yields distinct input/output inversion. -/
theorem c8_original_cex :
    pathsDistinct (get_input_output ⟨"p", 1, Dir.io, 0⟩ portC [] false) = false ∧
    pathsDistinct (get_input_output ⟨"p", 1, Dir.io, 0⟩ portC [] true) = false ∧
    pathsDistinct (get_diff_input_output ⟨"p", 1, Dir.io, 0⟩ pPortC nPortC [] false)
      = false ∧
    pathsDistinct (get_diff_input_output ⟨"p", 1, Dir.io, 0⟩ pPortC nPortC [] true)
      = false := by
  refine ⟨rfl, rfl, rfl, rfl⟩

/-- C8 (amended): input-path and output-path inversion are independent
parameters of the internal `_get_xdr_buffer` — for a bidirectional pin the
produced fragment inverts the input path iff `i_invert` and the output path
iff `o_invert`, so distinct values are possible there — but each public
bidirectional entry point exposes one `invert` flag and passes it to both
paths, so both paths always end up identically inverted. -/
theorem c8_inversion_flags (name : String) (w : Nat) (xdr : Nat) (ii oo : Bool)
    (port pp np : Sig) (attrs : List (String × String)) (inv : Bool)
    (h : xdr ∈ ([0, 1, 2] : List Nat)) :
    (∃ st tri, xdr_buffer St.empty ⟨name, w, .io, xdr⟩ ii oo = .ok (st, tri) ∧
       iPathInverted st = ii ∧ oPathInverted st = oo) ∧
    (∀ st, get_input_output ⟨name, w, .io, xdr⟩ port attrs inv = .ok st →
       iPathInverted st = inv ∧ oPathInverted st = inv) ∧
    (∀ st, get_diff_input_output ⟨name, w, .io, xdr⟩ pp np attrs inv = .ok st →
       iPathInverted st = inv ∧ oPathInverted st = inv) := by
  have h' : xdr = 0 ∨ xdr = 1 ∨ xdr = 2 := by simpa using h
  refine ⟨?_, ?_, ?_⟩
  · rcases h' with rfl | rfl | rfl <;> cases ii <;> cases oo <;>
      refine ⟨_, _, rfl, ?_, ?_⟩ <;>
        simp [iPathInverted, oPathInverted, get_ineg, get_oneg, St.freshSig,
          St.empty, St.addComb, get_dff_eq, get_iddr_eq, get_oddr_eq,
          combIsInegAssign, combIsOnegAssign, Pin.iSig, Pin.i0Sig, Pin.i1Sig,
          Pin.oSig, Pin.o0Sig, Pin.o1Sig]
  · rcases h' with rfl | rfl | rfl <;> cases inv <;>
      (intro st heq;
       simp only [get_input_output, checkFeature] at heq) <;>
      (rw [show st = _ from (Except.ok.injEq _ _).mp heq.symm];
       constructor <;>
         simp [iPathInverted, oPathInverted, addInstLoop_comb, get_ineg, get_oneg,
           St.freshSig, St.empty, St.addComb, get_dff_eq, get_iddr_eq, get_oddr_eq,
           combIsInegAssign, combIsOnegAssign, Pin.iSig, Pin.i0Sig, Pin.i1Sig,
           Pin.oSig, Pin.o0Sig, Pin.o1Sig])
  · rcases h' with rfl | rfl | rfl <;> cases inv <;>
      (intro st heq;
       simp only [get_diff_input_output, checkFeature] at heq) <;>
      (rw [show st = _ from (Except.ok.injEq _ _).mp heq.symm];
       constructor <;>
         simp [iPathInverted, oPathInverted, addInstLoop_comb, get_ineg, get_oneg,
           St.freshSig, St.empty, St.addComb, get_dff_eq, get_iddr_eq, get_oddr_eq,
           combIsInegAssign, combIsOnegAssign, Pin.iSig, Pin.i0Sig, Pin.i1Sig,
           Pin.oSig, Pin.o0Sig, Pin.o1Sig])

/-- Witness for C8 at a concrete pin, requesting inversion of the input path
only through the internal routine. -/
theorem c8_inversion_flags_witness :
    (1 : Nat) ∈ ([0, 1, 2] : List Nat) ∧
    ((∃ st tri, xdr_buffer St.empty ⟨"p", 1, .io, 1⟩ true false = .ok (st, tri) ∧
        iPathInverted st = true ∧ oPathInverted st = false) ∧
     (∀ st, get_input_output ⟨"p", 1, .io, 1⟩ portC [] false = .ok st →
        iPathInverted st = false ∧ oPathInverted st = false) ∧
     (∀ st, get_diff_input_output ⟨"p", 1, .io, 1⟩ pPortC nPortC [] false = .ok st →
        iPathInverted st = false ∧ oPathInverted st = false)) :=
  ⟨by decide,
   c8_inversion_flags "p" 1 1 true false portC pPortC nPortC [] false (by decide)⟩

/-! ### Claim C9: the Scenario-D fragment -/

/-- Counterexample to C9 as stated: for the single-ended bidirectional pin of
width 1 with mode 1 (invert false) the fragment holds three single-edge
registers (input data, output data, enable) and one `IOBUF` — two data
registers rather than one, and no standalone enable-inverter primitive (the
complement of `oe` sits inline on the enable register's `i_D` port). -/
theorem c9_original_cex :
    (get_input_output ⟨"p", 1, Dir.io, 1⟩ portC [] false).map
        (fun st => st.submodules.map (fun s => s.2.kind))
      = .ok ["FDCE", "FDCE", "FDCE", "IOBUF"] ∧
    (get_input_output ⟨"p", 1, Dir.io, 1⟩ portC [] false).map
        (fun st => (st.submodules.filter (fun s => s.2.kind == "FDCE")).length)
      = .ok 3 :=
  ⟨rfl, rfl⟩

/-- C9 (amended): for a single-ended bidirectional pin of width 1 with
dataRateMode 1 and invert false, the produced fragment contains exactly an
input-data register, an output-data register, an enable register whose data
input is the inline complement of `outputEnable`, and one tristate
input/output buffer primitive, together with the three feed-through
assignments. -/
theorem c9_bidir_fragment :
    get_input_output ⟨"p", 1, Dir.io, 1⟩ portC [] false =
      .ok ⟨[(none, fdce (.sig ⟨.pinIClk, 1, "p__i_clk", []⟩)
               ((Val.sig ⟨.fresh 0, 1, "p_xdr_i", []⟩).idx 0) (dffQS 3)),
            (none, fdce (.sig ⟨.pinOClk, 1, "p__o_clk", []⟩)
               ((Val.sig ⟨.pinO, 1, "p__o", []⟩).idx 0) (dffQS 4)),
            (none, fdce (.sig ⟨.pinOClk, 1, "p__o_clk", []⟩)
               ((Val.not (.sig ⟨.pinOE, 1, "p__oe", []⟩)).idx 0) (dffQS 5)),
            (some "p_0",
             ⟨"IOBUF", [],
              [("i_T", .sig ⟨.fresh 2, 1, "p_xdr_t", []⟩),
               ("i_I", (Val.sig ⟨.fresh 1, 1, "p_xdr_o", []⟩).idx 0),
               ("o_O", (Val.sig ⟨.fresh 0, 1, "p_xdr_i", []⟩).idx 0),
               ("io_IO", (Val.sig ⟨.extPort, 1, "port", []⟩).idx 0)]⟩)],
           [((Val.sig ⟨.pinI, 1, "p__i", []⟩).idx 0, .sig (dffQS 3)),
            ((Val.sig ⟨.fresh 1, 1, "p_xdr_o", []⟩).idx 0, .sig (dffQS 4)),
            ((Val.sig ⟨.fresh 2, 1, "p_xdr_t", []⟩).idx 0, .sig (dffQS 5))],
           6⟩ := by
  rfl

/-! ### Support lemmas for the structural claims -/

@[simp] theorem dffList_one (clk d : Val) (k : Nat) :
    dffList clk d k 1 = [(none, fdce clk (d.idx 0) (dffQS k))] := by
  simp [dffList, List.range_succ]

@[simp] theorem dffCombs_one (q : Sig) (k : Nat) :
    dffCombs q k 1 = [((Val.sig q).idx 0, .sig (dffQS k))] := by
  simp [dffCombs, List.range_succ]

/-- A `get_dff` assignment block for a signal other than `j` contains no
assignment whose left-hand side reads `j`. -/
theorem dffCombs_filter_mentions (q : Sig) (k n : Nat) (j : SigId)
    (h : (q.id == j) = false) :
    (dffCombs q k n).filter (fun c => c.1.mentions j) = [] := by
  rw [List.filter_eq_nil_iff]
  intro c hc
  simp only [dffCombs, List.mem_map, List.mem_range] at hc
  obtain ⟨b, _, rfl⟩ := hc
  simp [Val.mentions, h]

/-- Whether an instance is one of the dual-phase register primitives. -/
def isDualPhase (s : Option String × PrimInstance) : Bool :=
  s.2.kind == "IDDR" || s.2.kind == "ODDR"

theorem dffList_all_safe (clk d : Val) (k n : Nat) (j : SigId) :
    (dffList clk d k n).all
      (fun s => !(isDualPhase s) || !(instMentions s.2 j)) = true := by
  rw [List.all_eq_true]
  intro s hs
  simp only [dffList, List.mem_map, List.mem_range] at hs
  obtain ⟨b, _, rfl⟩ := hs
  simp [isDualPhase, fdce]

theorem iddrList_all_safe (clk d : Val) (q1 q2 : Sig) (n : Nat) (j : SigId)
    (hclk : clk.mentions j = false) (hd : d.mentions j = false)
    (h1 : (q1.id == j) = false) (h2 : (q2.id == j) = false) :
    (iddrList clk d q1 q2 n).all
      (fun s => !(isDualPhase s) || !(instMentions s.2 j)) = true := by
  rw [List.all_eq_true]
  intro s hs
  simp only [iddrList, List.mem_map, List.mem_range] at hs
  obtain ⟨b, _, rfl⟩ := hs
  simp [isDualPhase, iddrInst, instMentions, Val.mentions, hclk, hd, h1, h2]

theorem oddrList_all_safe (clk : Val) (d1 d2 q : Sig) (n : Nat) (j : SigId)
    (hclk : clk.mentions j = false) (h1 : (d1.id == j) = false)
    (h2 : (d2.id == j) = false) (hq : (q.id == j) = false) :
    (oddrList clk d1 d2 q n).all
      (fun s => !(isDualPhase s) || !(instMentions s.2 j)) = true := by
  rw [List.all_eq_true]
  intro s hs
  simp only [oddrList, List.mem_map, List.mem_range] at hs
  obtain ⟨b, _, rfl⟩ := hs
  simp [isDualPhase, oddrInst, instMentions, Val.mentions, hclk, h1, h2, hq]

/-- The kinds of the eight buffer primitives. -/
def bufKinds : List String :=
  ["IBUF", "OBUF", "OBUFT", "IOBUF", "IBUFDS", "OBUFDS", "OBUFTDS", "IOBUFDS"]

/-- Is a submodule one of the buffer primitives? -/
def isBufEntry (s : Option String × PrimInstance) : Bool :=
  bufKinds.contains s.2.kind

@[simp] theorem dffList_filter_buf (clk d : Val) (k n : Nat) :
    (dffList clk d k n).filter isBufEntry = [] := by
  rw [List.filter_eq_nil_iff]
  intro s hs
  simp only [dffList, List.mem_map, List.mem_range] at hs
  obtain ⟨b, _, rfl⟩ := hs
  simp [isBufEntry, fdce, bufKinds]

@[simp] theorem iddrList_filter_buf (clk d : Val) (q1 q2 : Sig) (n : Nat) :
    (iddrList clk d q1 q2 n).filter isBufEntry = [] := by
  rw [List.filter_eq_nil_iff]
  intro s hs
  simp only [iddrList, List.mem_map, List.mem_range] at hs
  obtain ⟨b, _, rfl⟩ := hs
  simp [isBufEntry, iddrInst, bufKinds]

@[simp] theorem oddrList_filter_buf (clk : Val) (d1 d2 q : Sig) (n : Nat) :
    (oddrList clk d1 d2 q n).filter isBufEntry = [] := by
  rw [List.filter_eq_nil_iff]
  intro s hs
  simp only [oddrList, List.mem_map, List.mem_range] at hs
  obtain ⟨b, _, rfl⟩ := hs
  simp [isBufEntry, oddrInst, bufKinds]

/-- A buffer loop whose every instance is a buffer kind survives the buffer
filter whole. -/
theorem instList_filter_buf (f : Nat → Option String × PrimInstance) (n : Nat)
    (h : ∀ b, isBufEntry (f b) = true) :
    (instList f n).filter isBufEntry = instList f n := by
  rw [List.filter_eq_self]
  intro s hs
  simp only [instList, List.mem_map, List.mem_range] at hs
  obtain ⟨b, _, rfl⟩ := hs
  exact h b

/-! ### Claim C2: the enable path is always a single-edge register -/

set_option maxHeartbeats 1000000 in
/-- C2: for every enable-bearing pin (direction `oe` or `io`) with data-rate
mode 1 or 2, the tristate enable `t` is driven (through its unique
combinational assignment, which is the last one emitted) by the output `_q`
of an `FDCE` — a single-edge flip-flop — clocked by `pin.o_clk` with data
input the complement of `pin.oe`; that `FDCE` is the last submodule emitted,
and no dual-phase register (`IDDR`/`ODDR`) instance ever touches `t`, even
when the data path uses the mode-2 topology. -/
theorem c2_enable_single_edge (name : String) (w : Nat) (ii oo : Bool) (dir : Dir) (xdr : Nat)
    (hd : dir = .oe ∨ dir = .io) (hx : xdr = 1 ∨ xdr = 2) :
    ∃ st tri tS,
      xdr_buffer St.empty ⟨name, w, dir, xdr⟩ ii oo = .ok (st, tri) ∧
      tri.t = some (.sig tS) ∧
      tS.width = 1 ∧
      (∃ qn,
        st.submodules.getLast? = some (none,
          fdce (.sig ⟨.pinOClk, 1, name ++ "__o_clk", []⟩)
            ((Val.not (.sig ⟨.pinOE, 1, name ++ "__oe", []⟩)).idx 0) (dffQS qn)) ∧
        st.comb.getLast? = some ((Val.sig tS).idx 0, .sig (dffQS qn))) ∧
      (st.comb.filter (fun c => c.1.mentions tS.id)).length = 1 ∧
      st.submodules.all (fun s => !(isDualPhase s) || !(instMentions s.2 tS.id)) = true := by
  rcases hd with rfl | rfl <;> rcases hx with rfl | rfl <;> cases ii <;> cases oo <;>
    (refine ⟨_, _, _, rfl, rfl, rfl, ?_, ?_, ?_⟩ <;>
      [(simp [xdr_buffer, get_dff_eq, get_iddr_eq, get_oddr_eq, get_ineg, get_oneg,
          St.empty, St.freshSig, St.addComb, St.addSub, Pin.iSig, Pin.i0Sig, Pin.i1Sig,
          Pin.oSig, Pin.o0Sig, Pin.o1Sig, Pin.oeSig, Pin.iClk, Pin.oClk,
          List.getLast?_cons];
        exact ⟨_, rfl, rfl⟩);
       simp [xdr_buffer, get_dff_eq, get_iddr_eq, get_oddr_eq, get_ineg, get_oneg,
          St.empty, St.freshSig, St.addComb, St.addSub, Pin.iSig, Pin.i0Sig, Pin.i1Sig,
          Pin.oSig, Pin.o0Sig, Pin.o1Sig, Pin.oeSig, Pin.iClk, Pin.oClk,
          dffCombs_filter_mentions, Val.mentions];
       (simp [xdr_buffer, get_dff_eq, get_iddr_eq, get_oddr_eq, get_ineg, get_oneg,
          St.empty, St.freshSig, St.addComb, St.addSub, Pin.iSig, Pin.i0Sig, Pin.i1Sig,
          Pin.oSig, Pin.o0Sig, Pin.o1Sig, Pin.oeSig, Pin.iClk, Pin.oClk,
          dffList, iddrList, oddrList, iddrInst, oddrInst, fdce,
          isDualPhase, instMentions, Val.mentions];
        try constructor;
        all_goals try (intro a ha nm v hv; rcases hv with ⟨-, rfl⟩ | ⟨-, rfl⟩ | ⟨-, rfl⟩ | ⟨-, rfl⟩ | ⟨-, rfl⟩ | ⟨-, rfl⟩ | ⟨-, rfl⟩ <;> simp [Val.mentions]))])

/-- Witness for C2 at a concrete bidirectional mode-2 pin. -/
theorem c2_enable_single_edge_witness :
    (Dir.io = .oe ∨ Dir.io = .io) ∧ ((2 : Nat) = 1 ∨ (2 : Nat) = 2) ∧
    (∃ st tri tS,
      xdr_buffer St.empty ⟨"p", 1, Dir.io, 2⟩ false false = .ok (st, tri) ∧
      tri.t = some (.sig tS) ∧
      tS.width = 1 ∧
      (∃ qn,
        st.submodules.getLast? = some (none,
          fdce (.sig ⟨.pinOClk, 1, "p" ++ "__o_clk", []⟩)
            ((Val.not (.sig ⟨.pinOE, 1, "p" ++ "__oe", []⟩)).idx 0) (dffQS qn)) ∧
        st.comb.getLast? = some ((Val.sig tS).idx 0, .sig (dffQS qn))) ∧
      (st.comb.filter (fun c => c.1.mentions tS.id)).length = 1 ∧
      st.submodules.all (fun s => !(isDualPhase s) || !(instMentions s.2 tS.id)) = true) :=
  ⟨Or.inr rfl, Or.inr rfl,
   c2_enable_single_edge "p" 1 false false Dir.io 2 (Or.inr rfl) (Or.inr rfl)⟩

/-! ### Claim C5: the SingleEdge input topology -/

theorem take_append_of_length {α : Type _} {L1 : List α} {w : Nat} (L2 : List α)
    (h : L1.length = w) : (L1 ++ L2).take w = L1 := by
  subst h; exact List.take_left L1 L2

set_option maxHeartbeats 1000000 in
/-- C5: for a SingleEdge (mode 1) input-bearing pin, the first `width`
submodules are one `FDCE` per bit — clock `pin.i_clk`, clear tied to
`Const(0)`, enable tied to `Const(1)` (see `fdce`) — each capturing bit `b`
of the raw buffer-driven wire (the triple's `i`), and their outputs feed the
polarity-normalized signal bit by bit; when inversion is requested the
normalized signal is a fresh `_n` signal and the very first assignment binds
`pin.i` as its complement, so the register sits between the raw wire and the
inversion stage; without inversion the register output feeds `pin.i`
directly. -/
theorem c5_sdr_input_path (name : String) (w : Nat) (ii oo : Bool) (dir : Dir)
    (hd : dir = .i ∨ dir = .io) :
    ∃ st tri rawI normI qb cOff,
      xdr_buffer St.empty ⟨name, w, dir, 1⟩ ii oo = .ok (st, tri) ∧
      tri.i = some (.sig rawI) ∧
      st.submodules.take w
        = dffList (.sig ⟨.pinIClk, 1, name ++ "__i_clk", []⟩) (.sig rawI) qb w ∧
      (st.comb.drop cOff).take w = dffCombs normI qb w ∧
      (ii = true → normI = ⟨.fresh 0, w, name ++ "__i" ++ "_n", []⟩ ∧
        st.comb.head? = some (.sig ⟨.pinI, w, name ++ "__i", []⟩, .not (.sig normI))) ∧
      (ii = false → normI = ⟨.pinI, w, name ++ "__i", []⟩) := by
  rcases hd with rfl | rfl <;> cases ii <;> cases oo
  · refine ⟨_, _, _, ⟨.pinI, w, name ++ "__i", []⟩, 1, 0, rfl, rfl, ?_, ?_, ?_, ?_⟩
    · simp [xdr_buffer, get_dff_eq, get_ineg, get_oneg, St.empty, St.freshSig,
        St.addComb, St.addSub, Pin.iSig, Pin.oSig, Pin.oeSig, Pin.iClk, Pin.oClk]
    · simp [xdr_buffer, get_dff_eq, get_ineg, get_oneg, St.empty, St.freshSig,
        St.addComb, St.addSub, Pin.iSig, Pin.oSig, Pin.oeSig, Pin.iClk, Pin.oClk]
    · intro h; exact absurd h (by decide)
    · intro h; rfl
  · refine ⟨_, _, _, ⟨.pinI, w, name ++ "__i", []⟩, 1, 0, rfl, rfl, ?_, ?_, ?_, ?_⟩
    · simp [xdr_buffer, get_dff_eq, get_ineg, get_oneg, St.empty, St.freshSig,
        St.addComb, St.addSub, Pin.iSig, Pin.oSig, Pin.oeSig, Pin.iClk, Pin.oClk]
    · simp [xdr_buffer, get_dff_eq, get_ineg, get_oneg, St.empty, St.freshSig,
        St.addComb, St.addSub, Pin.iSig, Pin.oSig, Pin.oeSig, Pin.iClk, Pin.oClk]
    · intro h; exact absurd h (by decide)
    · intro h; rfl
  · refine ⟨_, _, _, ⟨.fresh 0, w, name ++ "__i" ++ "_n", []⟩, 2, 1, rfl, rfl, ?_, ?_, ?_, ?_⟩
    · simp [xdr_buffer, get_dff_eq, get_ineg, get_oneg, St.empty, St.freshSig,
        St.addComb, St.addSub, Pin.iSig, Pin.oSig, Pin.oeSig, Pin.iClk, Pin.oClk]
    · simp [xdr_buffer, get_dff_eq, get_ineg, get_oneg, St.empty, St.freshSig,
        St.addComb, St.addSub, Pin.iSig, Pin.oSig, Pin.oeSig, Pin.iClk, Pin.oClk]
    · intro h; refine ⟨rfl, ?_⟩
      simp [xdr_buffer, get_dff_eq, get_ineg, get_oneg, St.empty, St.freshSig,
        St.addComb, St.addSub, Pin.iSig, Pin.oSig, Pin.oeSig, Pin.iClk, Pin.oClk]
    · intro h; exact absurd h (by decide)
  · refine ⟨_, _, _, ⟨.fresh 0, w, name ++ "__i" ++ "_n", []⟩, 2, 1, rfl, rfl, ?_, ?_, ?_, ?_⟩
    · simp [xdr_buffer, get_dff_eq, get_ineg, get_oneg, St.empty, St.freshSig,
        St.addComb, St.addSub, Pin.iSig, Pin.oSig, Pin.oeSig, Pin.iClk, Pin.oClk]
    · simp [xdr_buffer, get_dff_eq, get_ineg, get_oneg, St.empty, St.freshSig,
        St.addComb, St.addSub, Pin.iSig, Pin.oSig, Pin.oeSig, Pin.iClk, Pin.oClk]
    · intro h; refine ⟨rfl, ?_⟩
      simp [xdr_buffer, get_dff_eq, get_ineg, get_oneg, St.empty, St.freshSig,
        St.addComb, St.addSub, Pin.iSig, Pin.oSig, Pin.oeSig, Pin.iClk, Pin.oClk]
    · intro h; exact absurd h (by decide)
  · refine ⟨_, _, _, ⟨.pinI, w, name ++ "__i", []⟩, 3, 0, rfl, rfl, ?_, ?_, ?_, ?_⟩
    · simp [xdr_buffer, get_dff_eq, get_ineg, get_oneg, St.empty, St.freshSig,
        St.addComb, St.addSub, Pin.iSig, Pin.oSig, Pin.oeSig, Pin.iClk, Pin.oClk]
    · simp [xdr_buffer, get_dff_eq, get_ineg, get_oneg, St.empty, St.freshSig,
        St.addComb, St.addSub, Pin.iSig, Pin.oSig, Pin.oeSig, Pin.iClk, Pin.oClk]
    · intro h; exact absurd h (by decide)
    · intro h; rfl
  · refine ⟨_, _, _, ⟨.pinI, w, name ++ "__i", []⟩, 4, 1, rfl, rfl, ?_, ?_, ?_, ?_⟩
    · simp [xdr_buffer, get_dff_eq, get_ineg, get_oneg, St.empty, St.freshSig,
        St.addComb, St.addSub, Pin.iSig, Pin.oSig, Pin.oeSig, Pin.iClk, Pin.oClk]
    · simp [xdr_buffer, get_dff_eq, get_ineg, get_oneg, St.empty, St.freshSig,
        St.addComb, St.addSub, Pin.iSig, Pin.oSig, Pin.oeSig, Pin.iClk, Pin.oClk]
    · intro h; exact absurd h (by decide)
    · intro h; rfl
  · refine ⟨_, _, _, ⟨.fresh 0, w, name ++ "__i" ++ "_n", []⟩, 4, 1, rfl, rfl, ?_, ?_, ?_, ?_⟩
    · simp [xdr_buffer, get_dff_eq, get_ineg, get_oneg, St.empty, St.freshSig,
        St.addComb, St.addSub, Pin.iSig, Pin.oSig, Pin.oeSig, Pin.iClk, Pin.oClk]
    · simp [xdr_buffer, get_dff_eq, get_ineg, get_oneg, St.empty, St.freshSig,
        St.addComb, St.addSub, Pin.iSig, Pin.oSig, Pin.oeSig, Pin.iClk, Pin.oClk]
    · intro h; refine ⟨rfl, ?_⟩
      simp [xdr_buffer, get_dff_eq, get_ineg, get_oneg, St.empty, St.freshSig,
        St.addComb, St.addSub, Pin.iSig, Pin.oSig, Pin.oeSig, Pin.iClk, Pin.oClk]
    · intro h; exact absurd h (by decide)
  · refine ⟨_, _, _, ⟨.fresh 0, w, name ++ "__i" ++ "_n", []⟩, 5, 2, rfl, rfl, ?_, ?_, ?_, ?_⟩
    · simp [xdr_buffer, get_dff_eq, get_ineg, get_oneg, St.empty, St.freshSig,
        St.addComb, St.addSub, Pin.iSig, Pin.oSig, Pin.oeSig, Pin.iClk, Pin.oClk]
    · simp [xdr_buffer, get_dff_eq, get_ineg, get_oneg, St.empty, St.freshSig,
        St.addComb, St.addSub, Pin.iSig, Pin.oSig, Pin.oeSig, Pin.iClk, Pin.oClk]
    · intro h; refine ⟨rfl, ?_⟩
      simp [xdr_buffer, get_dff_eq, get_ineg, get_oneg, St.empty, St.freshSig,
        St.addComb, St.addSub, Pin.iSig, Pin.oSig, Pin.oeSig, Pin.iClk, Pin.oClk]
    · intro h; exact absurd h (by decide)

/-- Witness for C5 at a concrete inverted mode-1 input pin. -/
theorem c5_sdr_input_path_witness :
    (Dir.i = .i ∨ Dir.i = .io) ∧
    (∃ st tri rawI normI qb cOff,
      xdr_buffer St.empty ⟨"p", 1, Dir.i, 1⟩ true false = .ok (st, tri) ∧
      tri.i = some (.sig rawI) ∧
      st.submodules.take 1
        = dffList (.sig ⟨.pinIClk, 1, "p" ++ "__i_clk", []⟩) (.sig rawI) qb 1 ∧
      (st.comb.drop cOff).take 1 = dffCombs normI qb 1 ∧
      (true = true → normI = ⟨.fresh 0, 1, "p" ++ "__i" ++ "_n", []⟩ ∧
        st.comb.head? = some (.sig ⟨.pinI, 1, "p" ++ "__i", []⟩, .not (.sig normI))) ∧
      (true = false → normI = ⟨.pinI, 1, "p" ++ "__i", []⟩)) :=
  ⟨Or.inl rfl, c5_sdr_input_path "p" 1 true false Dir.i (Or.inl rfl)⟩

end X7

namespace X7

set_option maxHeartbeats 1000000 in
theorem c3_input_buffers (name : String) (w : Nat) (port pp np : Sig)
    (attrs : List (String × String)) (inv : Bool) (xdr : Nat)
    (h : xdr ∈ ([0, 1, 2] : List Nat)) :
    ∃ st1 tri st iv,
      xdr_buffer St.empty ⟨name, w, .i, xdr⟩ inv false = .ok (st1, tri) ∧
      tri.i = some iv ∧
      get_input ⟨name, w, .i, xdr⟩ port attrs inv = .ok st ∧
      st.submodules.filter isBufEntry
        = (List.range port.width).map (fun b =>
            (some (name ++ "_" ++ toString b),
             ⟨"IBUF", [],
              [("i_I", (Val.sig port).idx b), ("o_O", iv.idx b)]⟩)) := by
  have h' : xdr = 0 ∨ xdr = 1 ∨ xdr = 2 := by simpa using h
  rcases h' with rfl | rfl | rfl <;> cases inv <;>
    refine ⟨_, _, _, _, rfl, rfl, rfl, ?_⟩ <;>
      simp [get_input, checkFeature, xdr_buffer, instLoop_eq, instList,
        get_dff_eq, get_iddr_eq, get_oddr_eq, get_ineg, get_oneg, St.empty,
        St.freshSig, St.addComb, St.addSub, Pin.iSig, Pin.i0Sig, Pin.i1Sig,
        Pin.oSig, Pin.o0Sig, Pin.o1Sig, Pin.oeSig, Pin.iClk, Pin.oClk,
        isBufEntry, bufKinds, List.filter_map, List.filter_cons, fdce,
        Function.comp] <;>
      (try (congr 1; rw [List.filter_eq_self]; intro b hb;
            simp [isBufEntry, bufKinds, Function.comp]))

set_option maxHeartbeats 1000000 in
theorem c3_output_buffers (name : String) (w : Nat) (port pp np : Sig)
    (attrs : List (String × String)) (inv : Bool) (xdr : Nat)
    (h : xdr ∈ ([0, 1, 2] : List Nat)) :
    ∃ st1 tri st ov,
      xdr_buffer St.empty ⟨name, w, .o, xdr⟩ false inv = .ok (st1, tri) ∧
      tri.o = some ov ∧
      get_output ⟨name, w, .o, xdr⟩ port attrs inv = .ok st ∧
      st.submodules.filter isBufEntry
        = (List.range port.width).map (fun b =>
            (some (name ++ "_" ++ toString b),
             ⟨"OBUF", [],
              [("i_I", ov.idx b), ("o_O", (Val.sig port).idx b)]⟩)) := by
  have h' : xdr = 0 ∨ xdr = 1 ∨ xdr = 2 := by simpa using h
  rcases h' with rfl | rfl | rfl <;> cases inv <;>
    refine ⟨_, _, _, _, rfl, rfl, rfl, ?_⟩ <;>
      simp [get_output, checkFeature, xdr_buffer, instLoop_eq, instList,
        get_dff_eq, get_iddr_eq, get_oddr_eq, get_ineg, get_oneg, St.empty,
        St.freshSig, St.addComb, St.addSub, Pin.iSig, Pin.i0Sig, Pin.i1Sig,
        Pin.oSig, Pin.o0Sig, Pin.o1Sig, Pin.oeSig, Pin.iClk, Pin.oClk,
        isBufEntry, bufKinds, List.filter_map, List.filter_cons, fdce,
        Function.comp] <;>
      (try (congr 1; rw [List.filter_eq_self]; intro b hb;
            simp [isBufEntry, bufKinds, Function.comp]))

set_option maxHeartbeats 1000000 in
theorem c3_tristate_buffers (name : String) (w : Nat) (port pp np : Sig)
    (attrs : List (String × String)) (inv : Bool) (xdr : Nat)
    (h : xdr ∈ ([0, 1, 2] : List Nat)) :
    ∃ st1 tri st ov tv,
      xdr_buffer St.empty ⟨name, w, .oe, xdr⟩ false inv = .ok (st1, tri) ∧
      tri.o = some ov ∧
      tri.t = some tv ∧
      get_tristate ⟨name, w, .oe, xdr⟩ port attrs inv = .ok st ∧
      st.submodules.filter isBufEntry
        = (List.range port.width).map (fun b =>
            (some (name ++ "_" ++ toString b),
             ⟨"OBUFT", [],
              [("i_T", tv), ("i_I", ov.idx b), ("o_O", (Val.sig port).idx b)]⟩)) := by
  have h' : xdr = 0 ∨ xdr = 1 ∨ xdr = 2 := by simpa using h
  rcases h' with rfl | rfl | rfl <;> cases inv <;>
    refine ⟨_, _, _, _, _, rfl, rfl, rfl, rfl, ?_⟩ <;>
      simp [get_tristate, checkFeature, xdr_buffer, instLoop_eq, instList,
        get_dff_eq, get_iddr_eq, get_oddr_eq, get_ineg, get_oneg, St.empty,
        St.freshSig, St.addComb, St.addSub, Pin.iSig, Pin.i0Sig, Pin.i1Sig,
        Pin.oSig, Pin.o0Sig, Pin.o1Sig, Pin.oeSig, Pin.iClk, Pin.oClk,
        isBufEntry, bufKinds, List.filter_map, List.filter_cons, fdce,
        Function.comp] <;>
      (try (congr 1; rw [List.filter_eq_self]; intro b hb;
            simp [isBufEntry, bufKinds, Function.comp]))

set_option maxHeartbeats 1000000 in
theorem c3_inout_buffers (name : String) (w : Nat) (port pp np : Sig)
    (attrs : List (String × String)) (inv : Bool) (xdr : Nat)
    (h : xdr ∈ ([0, 1, 2] : List Nat)) :
    ∃ st1 tri st iv ov tv,
      xdr_buffer St.empty ⟨name, w, .io, xdr⟩ inv inv = .ok (st1, tri) ∧
      tri.i = some iv ∧
      tri.o = some ov ∧
      tri.t = some tv ∧
      get_input_output ⟨name, w, .io, xdr⟩ port attrs inv = .ok st ∧
      st.submodules.filter isBufEntry
        = (List.range port.width).map (fun b =>
            (some (name ++ "_" ++ toString b),
             ⟨"IOBUF", [],
              [("i_T", tv), ("i_I", ov.idx b), ("o_O", iv.idx b),
               ("io_IO", (Val.sig port).idx b)]⟩)) := by
  have h' : xdr = 0 ∨ xdr = 1 ∨ xdr = 2 := by simpa using h
  rcases h' with rfl | rfl | rfl <;> cases inv <;>
    refine ⟨_, _, _, _, _, _, rfl, rfl, rfl, rfl, rfl, ?_⟩ <;>
      simp [get_input_output, checkFeature, xdr_buffer, instLoop_eq, instList,
        get_dff_eq, get_iddr_eq, get_oddr_eq, get_ineg, get_oneg, St.empty,
        St.freshSig, St.addComb, St.addSub, Pin.iSig, Pin.i0Sig, Pin.i1Sig,
        Pin.oSig, Pin.o0Sig, Pin.o1Sig, Pin.oeSig, Pin.iClk, Pin.oClk,
        isBufEntry, bufKinds, List.filter_map, List.filter_cons, fdce,
        Function.comp] <;>
      (try (congr 1; rw [List.filter_eq_self]; intro b hb;
            simp [isBufEntry, bufKinds, Function.comp]))

set_option maxHeartbeats 1000000 in
theorem c3_diff_input_buffers (name : String) (w : Nat) (port pp np : Sig)
    (attrs : List (String × String)) (inv : Bool) (xdr : Nat)
    (h : xdr ∈ ([0, 1, 2] : List Nat)) :
    ∃ st1 tri st iv,
      xdr_buffer St.empty ⟨name, w, .i, xdr⟩ inv false = .ok (st1, tri) ∧
      tri.i = some iv ∧
      get_diff_input ⟨name, w, .i, xdr⟩ pp np attrs inv = .ok st ∧
      st.submodules.filter isBufEntry
        = (List.range pp.width).map (fun b =>
            (some (name ++ "_" ++ toString b),
             ⟨"IBUFDS", [],
              [("i_I", (Val.sig pp).idx b), ("i_IB", (Val.sig np).idx b),
               ("o_O", iv.idx b)]⟩)) := by
  have h' : xdr = 0 ∨ xdr = 1 ∨ xdr = 2 := by simpa using h
  rcases h' with rfl | rfl | rfl <;> cases inv <;>
    refine ⟨_, _, _, _, rfl, rfl, rfl, ?_⟩ <;>
      simp [get_diff_input, checkFeature, xdr_buffer, instLoop_eq, instList,
        get_dff_eq, get_iddr_eq, get_oddr_eq, get_ineg, get_oneg, St.empty,
        St.freshSig, St.addComb, St.addSub, Pin.iSig, Pin.i0Sig, Pin.i1Sig,
        Pin.oSig, Pin.o0Sig, Pin.o1Sig, Pin.oeSig, Pin.iClk, Pin.oClk,
        isBufEntry, bufKinds, List.filter_map, List.filter_cons, fdce,
        Function.comp] <;>
      (try (congr 1; rw [List.filter_eq_self]; intro b hb;
            simp [isBufEntry, bufKinds, Function.comp]))

set_option maxHeartbeats 1000000 in
theorem c3_diff_output_buffers (name : String) (w : Nat) (port pp np : Sig)
    (attrs : List (String × String)) (inv : Bool) (xdr : Nat)
    (h : xdr ∈ ([0, 1, 2] : List Nat)) :
    ∃ st1 tri st ov,
      xdr_buffer St.empty ⟨name, w, .o, xdr⟩ false inv = .ok (st1, tri) ∧
      tri.o = some ov ∧
      get_diff_output ⟨name, w, .o, xdr⟩ pp np attrs inv = .ok st ∧
      st.submodules.filter isBufEntry
        = (List.range pp.width).map (fun b =>
            (some (name ++ "_" ++ toString b),
             ⟨"OBUFDS", [],
              [("i_I", ov.idx b), ("o_O", (Val.sig pp).idx b),
               ("o_OB", (Val.sig np).idx b)]⟩)) := by
  have h' : xdr = 0 ∨ xdr = 1 ∨ xdr = 2 := by simpa using h
  rcases h' with rfl | rfl | rfl <;> cases inv <;>
    refine ⟨_, _, _, _, rfl, rfl, rfl, ?_⟩ <;>
      simp [get_diff_output, checkFeature, xdr_buffer, instLoop_eq, instList,
        get_dff_eq, get_iddr_eq, get_oddr_eq, get_ineg, get_oneg, St.empty,
        St.freshSig, St.addComb, St.addSub, Pin.iSig, Pin.i0Sig, Pin.i1Sig,
        Pin.oSig, Pin.o0Sig, Pin.o1Sig, Pin.oeSig, Pin.iClk, Pin.oClk,
        isBufEntry, bufKinds, List.filter_map, List.filter_cons, fdce,
        Function.comp] <;>
      (try (congr 1; rw [List.filter_eq_self]; intro b hb;
            simp [isBufEntry, bufKinds, Function.comp]))

set_option maxHeartbeats 1000000 in
theorem c3_diff_tristate_buffers (name : String) (w : Nat) (port pp np : Sig)
    (attrs : List (String × String)) (inv : Bool) (xdr : Nat)
    (h : xdr ∈ ([0, 1, 2] : List Nat)) :
    ∃ st1 tri st ov tv,
      xdr_buffer St.empty ⟨name, w, .oe, xdr⟩ false inv = .ok (st1, tri) ∧
      tri.o = some ov ∧
      tri.t = some tv ∧
      get_diff_tristate ⟨name, w, .oe, xdr⟩ pp np attrs inv = .ok st ∧
      st.submodules.filter isBufEntry
        = (List.range pp.width).map (fun b =>
            (some (name ++ "_" ++ toString b),
             ⟨"OBUFTDS", [],
              [("i_T", tv), ("i_I", ov.idx b), ("o_O", (Val.sig pp).idx b),
               ("o_OB", (Val.sig np).idx b)]⟩)) := by
  have h' : xdr = 0 ∨ xdr = 1 ∨ xdr = 2 := by simpa using h
  rcases h' with rfl | rfl | rfl <;> cases inv <;>
    refine ⟨_, _, _, _, _, rfl, rfl, rfl, rfl, ?_⟩ <;>
      simp [get_diff_tristate, checkFeature, xdr_buffer, instLoop_eq, instList,
        get_dff_eq, get_iddr_eq, get_oddr_eq, get_ineg, get_oneg, St.empty,
        St.freshSig, St.addComb, St.addSub, Pin.iSig, Pin.i0Sig, Pin.i1Sig,
        Pin.oSig, Pin.o0Sig, Pin.o1Sig, Pin.oeSig, Pin.iClk, Pin.oClk,
        isBufEntry, bufKinds, List.filter_map, List.filter_cons, fdce,
        Function.comp] <;>
      (try (congr 1; rw [List.filter_eq_self]; intro b hb;
            simp [isBufEntry, bufKinds, Function.comp]))

set_option maxHeartbeats 1000000 in
theorem c3_diff_inout_buffers (name : String) (w : Nat) (port pp np : Sig)
    (attrs : List (String × String)) (inv : Bool) (xdr : Nat)
    (h : xdr ∈ ([0, 1, 2] : List Nat)) :
    ∃ st1 tri st iv ov tv,
      xdr_buffer St.empty ⟨name, w, .io, xdr⟩ inv inv = .ok (st1, tri) ∧
      tri.i = some iv ∧
      tri.o = some ov ∧
      tri.t = some tv ∧
      get_diff_input_output ⟨name, w, .io, xdr⟩ pp np attrs inv = .ok st ∧
      st.submodules.filter isBufEntry
        = (List.range pp.width).map (fun b =>
            (some (name ++ "_" ++ toString b),
             ⟨"IOBUFDS", [],
              [("i_T", tv), ("i_I", ov.idx b), ("o_O", iv.idx b),
               ("io_IO", (Val.sig pp).idx b), ("io_IOB", (Val.sig np).idx b)]⟩)) := by
  have h' : xdr = 0 ∨ xdr = 1 ∨ xdr = 2 := by simpa using h
  rcases h' with rfl | rfl | rfl <;> cases inv <;>
    refine ⟨_, _, _, _, _, _, rfl, rfl, rfl, rfl, rfl, ?_⟩ <;>
      simp [get_diff_input_output, checkFeature, xdr_buffer, instLoop_eq, instList,
        get_dff_eq, get_iddr_eq, get_oddr_eq, get_ineg, get_oneg, St.empty,
        St.freshSig, St.addComb, St.addSub, Pin.iSig, Pin.i0Sig, Pin.i1Sig,
        Pin.oSig, Pin.o0Sig, Pin.o1Sig, Pin.oeSig, Pin.iClk, Pin.oClk,
        isBufEntry, bufKinds, List.filter_map, List.filter_cons, fdce,
        Function.comp] <;>
      (try (congr 1; rw [List.filter_eq_self]; intro b hb;
            simp [isBufEntry, bufKinds, Function.comp]))
end X7

namespace X7

/-- C3: every one of the eight entry points emits exactly one buffer
primitive instance per bit of the port (differential entry points emit one
differential primitive per bit, consuming the true/complement wire pair at
that bit index), and within one lowering call the buffer instances appear in
strictly ascending bit-index order: the buffer-filtered submodule list is
exactly the image of `List.range` (bits 0, 1, 2, ...) under the per-bit
instance map. -/
theorem c3_one_buffer_per_bit (name : String) (w : Nat) (port pp np : Sig)
    (attrs : List (String × String)) (inv : Bool) (xdr : Nat)
    (h : xdr ∈ ([0, 1, 2] : List Nat)) :
    (∃ st1 tri st iv,
       xdr_buffer St.empty ⟨name, w, .i, xdr⟩ inv false = .ok (st1, tri) ∧
       tri.i = some iv ∧
       get_input ⟨name, w, .i, xdr⟩ port attrs inv = .ok st ∧
       st.submodules.filter isBufEntry
         = (List.range port.width).map (fun b =>
             (some (name ++ "_" ++ toString b),
              ⟨"IBUF", [],
               [("i_I", (Val.sig port).idx b), ("o_O", iv.idx b)]⟩))) ∧
    (∃ st1 tri st ov,
       xdr_buffer St.empty ⟨name, w, .o, xdr⟩ false inv = .ok (st1, tri) ∧
       tri.o = some ov ∧
       get_output ⟨name, w, .o, xdr⟩ port attrs inv = .ok st ∧
       st.submodules.filter isBufEntry
         = (List.range port.width).map (fun b =>
             (some (name ++ "_" ++ toString b),
              ⟨"OBUF", [],
               [("i_I", ov.idx b), ("o_O", (Val.sig port).idx b)]⟩))) ∧
    (∃ st1 tri st ov tv,
       xdr_buffer St.empty ⟨name, w, .oe, xdr⟩ false inv = .ok (st1, tri) ∧
       tri.o = some ov ∧
       tri.t = some tv ∧
       get_tristate ⟨name, w, .oe, xdr⟩ port attrs inv = .ok st ∧
       st.submodules.filter isBufEntry
         = (List.range port.width).map (fun b =>
             (some (name ++ "_" ++ toString b),
              ⟨"OBUFT", [],
               [("i_T", tv), ("i_I", ov.idx b), ("o_O", (Val.sig port).idx b)]⟩))) ∧
    (∃ st1 tri st iv ov tv,
       xdr_buffer St.empty ⟨name, w, .io, xdr⟩ inv inv = .ok (st1, tri) ∧
       tri.i = some iv ∧
       tri.o = some ov ∧
       tri.t = some tv ∧
       get_input_output ⟨name, w, .io, xdr⟩ port attrs inv = .ok st ∧
       st.submodules.filter isBufEntry
         = (List.range port.width).map (fun b =>
             (some (name ++ "_" ++ toString b),
              ⟨"IOBUF", [],
               [("i_T", tv), ("i_I", ov.idx b), ("o_O", iv.idx b),
                ("io_IO", (Val.sig port).idx b)]⟩))) ∧
    (∃ st1 tri st iv,
       xdr_buffer St.empty ⟨name, w, .i, xdr⟩ inv false = .ok (st1, tri) ∧
       tri.i = some iv ∧
       get_diff_input ⟨name, w, .i, xdr⟩ pp np attrs inv = .ok st ∧
       st.submodules.filter isBufEntry
         = (List.range pp.width).map (fun b =>
             (some (name ++ "_" ++ toString b),
              ⟨"IBUFDS", [],
               [("i_I", (Val.sig pp).idx b), ("i_IB", (Val.sig np).idx b),
                ("o_O", iv.idx b)]⟩))) ∧
    (∃ st1 tri st ov,
       xdr_buffer St.empty ⟨name, w, .o, xdr⟩ false inv = .ok (st1, tri) ∧
       tri.o = some ov ∧
       get_diff_output ⟨name, w, .o, xdr⟩ pp np attrs inv = .ok st ∧
       st.submodules.filter isBufEntry
         = (List.range pp.width).map (fun b =>
             (some (name ++ "_" ++ toString b),
              ⟨"OBUFDS", [],
               [("i_I", ov.idx b), ("o_O", (Val.sig pp).idx b),
                ("o_OB", (Val.sig np).idx b)]⟩))) ∧
    (∃ st1 tri st ov tv,
       xdr_buffer St.empty ⟨name, w, .oe, xdr⟩ false inv = .ok (st1, tri) ∧
       tri.o = some ov ∧
       tri.t = some tv ∧
       get_diff_tristate ⟨name, w, .oe, xdr⟩ pp np attrs inv = .ok st ∧
       st.submodules.filter isBufEntry
         = (List.range pp.width).map (fun b =>
             (some (name ++ "_" ++ toString b),
              ⟨"OBUFTDS", [],
               [("i_T", tv), ("i_I", ov.idx b), ("o_O", (Val.sig pp).idx b),
                ("o_OB", (Val.sig np).idx b)]⟩))) ∧
    (∃ st1 tri st iv ov tv,
       xdr_buffer St.empty ⟨name, w, .io, xdr⟩ inv inv = .ok (st1, tri) ∧
       tri.i = some iv ∧
       tri.o = some ov ∧
       tri.t = some tv ∧
       get_diff_input_output ⟨name, w, .io, xdr⟩ pp np attrs inv = .ok st ∧
       st.submodules.filter isBufEntry
         = (List.range pp.width).map (fun b =>
             (some (name ++ "_" ++ toString b),
              ⟨"IOBUFDS", [],
               [("i_T", tv), ("i_I", ov.idx b), ("o_O", iv.idx b),
                ("io_IO", (Val.sig pp).idx b), ("io_IOB", (Val.sig np).idx b)]⟩))) :=
  ⟨c3_input_buffers name w port pp np attrs inv xdr h,
   c3_output_buffers name w port pp np attrs inv xdr h,
   c3_tristate_buffers name w port pp np attrs inv xdr h,
   c3_inout_buffers name w port pp np attrs inv xdr h,
   c3_diff_input_buffers name w port pp np attrs inv xdr h,
   c3_diff_output_buffers name w port pp np attrs inv xdr h,
   c3_diff_tristate_buffers name w port pp np attrs inv xdr h,
   c3_diff_inout_buffers name w port pp np attrs inv xdr h⟩

/-- Witness for C3 at a concrete mode-1 pin of width 1. -/
theorem c3_one_buffer_per_bit_witness :
    (1 : Nat) ∈ ([0, 1, 2] : List Nat) ∧
    ((∃ st1 tri st iv,
       xdr_buffer St.empty ⟨"p", 1, .i, 1⟩ false false = .ok (st1, tri) ∧
       tri.i = some iv ∧
       get_input ⟨"p", 1, .i, 1⟩ portC [] false = .ok st ∧
       st.submodules.filter isBufEntry
         = (List.range portC.width).map (fun b =>
             (some ("p" ++ "_" ++ toString b),
              ⟨"IBUF", [],
               [("i_I", (Val.sig portC).idx b), ("o_O", iv.idx b)]⟩))) ∧
    (∃ st1 tri st ov,
       xdr_buffer St.empty ⟨"p", 1, .o, 1⟩ false false = .ok (st1, tri) ∧
       tri.o = some ov ∧
       get_output ⟨"p", 1, .o, 1⟩ portC [] false = .ok st ∧
       st.submodules.filter isBufEntry
         = (List.range portC.width).map (fun b =>
             (some ("p" ++ "_" ++ toString b),
              ⟨"OBUF", [],
               [("i_I", ov.idx b), ("o_O", (Val.sig portC).idx b)]⟩))) ∧
    (∃ st1 tri st ov tv,
       xdr_buffer St.empty ⟨"p", 1, .oe, 1⟩ false false = .ok (st1, tri) ∧
       tri.o = some ov ∧
       tri.t = some tv ∧
       get_tristate ⟨"p", 1, .oe, 1⟩ portC [] false = .ok st ∧
       st.submodules.filter isBufEntry
         = (List.range portC.width).map (fun b =>
             (some ("p" ++ "_" ++ toString b),
              ⟨"OBUFT", [],
               [("i_T", tv), ("i_I", ov.idx b), ("o_O", (Val.sig portC).idx b)]⟩))) ∧
    (∃ st1 tri st iv ov tv,
       xdr_buffer St.empty ⟨"p", 1, .io, 1⟩ false false = .ok (st1, tri) ∧
       tri.i = some iv ∧
       tri.o = some ov ∧
       tri.t = some tv ∧
       get_input_output ⟨"p", 1, .io, 1⟩ portC [] false = .ok st ∧
       st.submodules.filter isBufEntry
         = (List.range portC.width).map (fun b =>
             (some ("p" ++ "_" ++ toString b),
              ⟨"IOBUF", [],
               [("i_T", tv), ("i_I", ov.idx b), ("o_O", iv.idx b),
                ("io_IO", (Val.sig portC).idx b)]⟩))) ∧
    (∃ st1 tri st iv,
       xdr_buffer St.empty ⟨"p", 1, .i, 1⟩ false false = .ok (st1, tri) ∧
       tri.i = some iv ∧
       get_diff_input ⟨"p", 1, .i, 1⟩ pPortC nPortC [] false = .ok st ∧
       st.submodules.filter isBufEntry
         = (List.range pPortC.width).map (fun b =>
             (some ("p" ++ "_" ++ toString b),
              ⟨"IBUFDS", [],
               [("i_I", (Val.sig pPortC).idx b), ("i_IB", (Val.sig nPortC).idx b),
                ("o_O", iv.idx b)]⟩))) ∧
    (∃ st1 tri st ov,
       xdr_buffer St.empty ⟨"p", 1, .o, 1⟩ false false = .ok (st1, tri) ∧
       tri.o = some ov ∧
       get_diff_output ⟨"p", 1, .o, 1⟩ pPortC nPortC [] false = .ok st ∧
       st.submodules.filter isBufEntry
         = (List.range pPortC.width).map (fun b =>
             (some ("p" ++ "_" ++ toString b),
              ⟨"OBUFDS", [],
               [("i_I", ov.idx b), ("o_O", (Val.sig pPortC).idx b),
                ("o_OB", (Val.sig nPortC).idx b)]⟩))) ∧
    (∃ st1 tri st ov tv,
       xdr_buffer St.empty ⟨"p", 1, .oe, 1⟩ false false = .ok (st1, tri) ∧
       tri.o = some ov ∧
       tri.t = some tv ∧
       get_diff_tristate ⟨"p", 1, .oe, 1⟩ pPortC nPortC [] false = .ok st ∧
       st.submodules.filter isBufEntry
         = (List.range pPortC.width).map (fun b =>
             (some ("p" ++ "_" ++ toString b),
              ⟨"OBUFTDS", [],
               [("i_T", tv), ("i_I", ov.idx b), ("o_O", (Val.sig pPortC).idx b),
                ("o_OB", (Val.sig nPortC).idx b)]⟩))) ∧
    (∃ st1 tri st iv ov tv,
       xdr_buffer St.empty ⟨"p", 1, .io, 1⟩ false false = .ok (st1, tri) ∧
       tri.i = some iv ∧
       tri.o = some ov ∧
       tri.t = some tv ∧
       get_diff_input_output ⟨"p", 1, .io, 1⟩ pPortC nPortC [] false = .ok st ∧
       st.submodules.filter isBufEntry
         = (List.range pPortC.width).map (fun b =>
             (some ("p" ++ "_" ++ toString b),
              ⟨"IOBUFDS", [],
               [("i_T", tv), ("i_I", ov.idx b), ("o_O", iv.idx b),
                ("io_IO", (Val.sig pPortC).idx b), ("io_IOB", (Val.sig nPortC).idx b)]⟩)))) :=
  ⟨by decide, c3_one_buffer_per_bit "p" 1 portC pPortC nPortC [] false 1 (by decide)⟩
end X7

namespace X7

set_option maxHeartbeats 1000000 in
theorem c10_tristate_shared_t (name : String) (w : Nat) (port pp np : Sig)
    (attrs : List (String × String)) (inv : Bool) (xdr : Nat)
    (h : xdr ∈ ([0, 1, 2] : List Nat)) :
    ∃ st1 tri st tv,
      xdr_buffer St.empty ⟨name, w, .oe, xdr⟩ false inv = .ok (st1, tri) ∧
      tri.t = some tv ∧
      tv.width = 1 ∧
      get_tristate ⟨name, w, .oe, xdr⟩ port attrs inv = .ok st ∧
      st.submodules.all
        (fun s => !(isBufEntry s) || s.2.ports.contains ("i_T", tv)) = true := by
  have h' : xdr = 0 ∨ xdr = 1 ∨ xdr = 2 := by simpa using h
  rcases h' with rfl | rfl | rfl <;> cases inv <;>
    refine ⟨_, _, _, _, rfl, rfl, rfl, rfl, ?_⟩ <;>
      simp [get_tristate, checkFeature, xdr_buffer, instLoop_eq, instList,
        get_dff_eq, get_iddr_eq, get_oddr_eq, get_ineg, get_oneg, St.empty,
        St.freshSig, St.addComb, St.addSub, Pin.iSig, Pin.i0Sig, Pin.i1Sig,
        Pin.oSig, Pin.o0Sig, Pin.o1Sig, Pin.oeSig, Pin.iClk, Pin.oClk,
        isBufEntry, bufKinds, dffList, iddrList, oddrList, fdce, iddrInst,
        oddrInst]

set_option maxHeartbeats 1000000 in
theorem c10_inout_shared_t (name : String) (w : Nat) (port pp np : Sig)
    (attrs : List (String × String)) (inv : Bool) (xdr : Nat)
    (h : xdr ∈ ([0, 1, 2] : List Nat)) :
    ∃ st1 tri st tv,
      xdr_buffer St.empty ⟨name, w, .io, xdr⟩ inv inv = .ok (st1, tri) ∧
      tri.t = some tv ∧
      tv.width = 1 ∧
      get_input_output ⟨name, w, .io, xdr⟩ port attrs inv = .ok st ∧
      st.submodules.all
        (fun s => !(isBufEntry s) || s.2.ports.contains ("i_T", tv)) = true := by
  have h' : xdr = 0 ∨ xdr = 1 ∨ xdr = 2 := by simpa using h
  rcases h' with rfl | rfl | rfl <;> cases inv <;>
    refine ⟨_, _, _, _, rfl, rfl, rfl, rfl, ?_⟩ <;>
      simp [get_input_output, checkFeature, xdr_buffer, instLoop_eq, instList,
        get_dff_eq, get_iddr_eq, get_oddr_eq, get_ineg, get_oneg, St.empty,
        St.freshSig, St.addComb, St.addSub, Pin.iSig, Pin.i0Sig, Pin.i1Sig,
        Pin.oSig, Pin.o0Sig, Pin.o1Sig, Pin.oeSig, Pin.iClk, Pin.oClk,
        isBufEntry, bufKinds, dffList, iddrList, oddrList, fdce, iddrInst,
        oddrInst]

set_option maxHeartbeats 1000000 in
theorem c10_diff_tristate_shared_t (name : String) (w : Nat) (port pp np : Sig)
    (attrs : List (String × String)) (inv : Bool) (xdr : Nat)
    (h : xdr ∈ ([0, 1, 2] : List Nat)) :
    ∃ st1 tri st tv,
      xdr_buffer St.empty ⟨name, w, .oe, xdr⟩ false inv = .ok (st1, tri) ∧
      tri.t = some tv ∧
      tv.width = 1 ∧
      get_diff_tristate ⟨name, w, .oe, xdr⟩ pp np attrs inv = .ok st ∧
      st.submodules.all
        (fun s => !(isBufEntry s) || s.2.ports.contains ("i_T", tv)) = true := by
  have h' : xdr = 0 ∨ xdr = 1 ∨ xdr = 2 := by simpa using h
  rcases h' with rfl | rfl | rfl <;> cases inv <;>
    refine ⟨_, _, _, _, rfl, rfl, rfl, rfl, ?_⟩ <;>
      simp [get_diff_tristate, checkFeature, xdr_buffer, instLoop_eq, instList,
        get_dff_eq, get_iddr_eq, get_oddr_eq, get_ineg, get_oneg, St.empty,
        St.freshSig, St.addComb, St.addSub, Pin.iSig, Pin.i0Sig, Pin.i1Sig,
        Pin.oSig, Pin.o0Sig, Pin.o1Sig, Pin.oeSig, Pin.iClk, Pin.oClk,
        isBufEntry, bufKinds, dffList, iddrList, oddrList, fdce, iddrInst,
        oddrInst]

set_option maxHeartbeats 1000000 in
theorem c10_diff_inout_shared_t (name : String) (w : Nat) (port pp np : Sig)
    (attrs : List (String × String)) (inv : Bool) (xdr : Nat)
    (h : xdr ∈ ([0, 1, 2] : List Nat)) :
    ∃ st1 tri st tv,
      xdr_buffer St.empty ⟨name, w, .io, xdr⟩ inv inv = .ok (st1, tri) ∧
      tri.t = some tv ∧
      tv.width = 1 ∧
      get_diff_input_output ⟨name, w, .io, xdr⟩ pp np attrs inv = .ok st ∧
      st.submodules.all
        (fun s => !(isBufEntry s) || s.2.ports.contains ("i_T", tv)) = true := by
  have h' : xdr = 0 ∨ xdr = 1 ∨ xdr = 2 := by simpa using h
  rcases h' with rfl | rfl | rfl <;> cases inv <;>
    refine ⟨_, _, _, _, rfl, rfl, rfl, rfl, ?_⟩ <;>
      simp [get_diff_input_output, checkFeature, xdr_buffer, instLoop_eq, instList,
        get_dff_eq, get_iddr_eq, get_oddr_eq, get_ineg, get_oneg, St.empty,
        St.freshSig, St.addComb, St.addSub, Pin.iSig, Pin.i0Sig, Pin.i1Sig,
        Pin.oSig, Pin.o0Sig, Pin.o1Sig, Pin.oeSig, Pin.iClk, Pin.oClk,
        isBufEntry, bufKinds, dffList, iddrList, oddrList, fdce, iddrInst,
        oddrInst]
end X7

namespace X7

/-- C10: for every enable-bearing pin of any width and valid mode, the
tristate enable `t` of the lowered triple is a single 1-bit value (a 1-bit
signal for modes 1 and 2, the 1-bit expression `~oe` for mode 0) — not one
bit per data bit — and in each of the four tristate-capable entry points
every emitted buffer instance consumes that same shared `t` on its `i_T`
port. -/
theorem c10_shared_enable (name : String) (w : Nat) (port pp np : Sig)
    (attrs : List (String × String)) (inv : Bool) (xdr : Nat)
    (h : xdr ∈ ([0, 1, 2] : List Nat)) :
    (∃ st1 tri st tv,
       xdr_buffer St.empty ⟨name, w, .oe, xdr⟩ false inv = .ok (st1, tri) ∧
       tri.t = some tv ∧
       tv.width = 1 ∧
       get_tristate ⟨name, w, .oe, xdr⟩ port attrs inv = .ok st ∧
       st.submodules.all
         (fun s => !(isBufEntry s) || s.2.ports.contains ("i_T", tv)) = true) ∧
    (∃ st1 tri st tv,
       xdr_buffer St.empty ⟨name, w, .io, xdr⟩ inv inv = .ok (st1, tri) ∧
       tri.t = some tv ∧
       tv.width = 1 ∧
       get_input_output ⟨name, w, .io, xdr⟩ port attrs inv = .ok st ∧
       st.submodules.all
         (fun s => !(isBufEntry s) || s.2.ports.contains ("i_T", tv)) = true) ∧
    (∃ st1 tri st tv,
       xdr_buffer St.empty ⟨name, w, .oe, xdr⟩ false inv = .ok (st1, tri) ∧
       tri.t = some tv ∧
       tv.width = 1 ∧
       get_diff_tristate ⟨name, w, .oe, xdr⟩ pp np attrs inv = .ok st ∧
       st.submodules.all
         (fun s => !(isBufEntry s) || s.2.ports.contains ("i_T", tv)) = true) ∧
    (∃ st1 tri st tv,
       xdr_buffer St.empty ⟨name, w, .io, xdr⟩ inv inv = .ok (st1, tri) ∧
       tri.t = some tv ∧
       tv.width = 1 ∧
       get_diff_input_output ⟨name, w, .io, xdr⟩ pp np attrs inv = .ok st ∧
       st.submodules.all
         (fun s => !(isBufEntry s) || s.2.ports.contains ("i_T", tv)) = true) :=
  ⟨c10_tristate_shared_t name w port pp np attrs inv xdr h,
   c10_inout_shared_t name w port pp np attrs inv xdr h,
   c10_diff_tristate_shared_t name w port pp np attrs inv xdr h,
   c10_diff_inout_shared_t name w port pp np attrs inv xdr h⟩

/-- Witness for C10 at a concrete width-3 mode-2 pin. -/
theorem c10_shared_enable_witness :
    (2 : Nat) ∈ ([0, 1, 2] : List Nat) ∧
    ((∃ st1 tri st tv,
       xdr_buffer St.empty ⟨"p", 3, .oe, 2⟩ false false = .ok (st1, tri) ∧
       tri.t = some tv ∧
       tv.width = 1 ∧
       get_tristate ⟨"p", 3, .oe, 2⟩ portC [] false = .ok st ∧
       st.submodules.all
         (fun s => !(isBufEntry s) || s.2.ports.contains ("i_T", tv)) = true) ∧
    (∃ st1 tri st tv,
       xdr_buffer St.empty ⟨"p", 3, .io, 2⟩ false false = .ok (st1, tri) ∧
       tri.t = some tv ∧
       tv.width = 1 ∧
       get_input_output ⟨"p", 3, .io, 2⟩ portC [] false = .ok st ∧
       st.submodules.all
         (fun s => !(isBufEntry s) || s.2.ports.contains ("i_T", tv)) = true) ∧
    (∃ st1 tri st tv,
       xdr_buffer St.empty ⟨"p", 3, .oe, 2⟩ false false = .ok (st1, tri) ∧
       tri.t = some tv ∧
       tv.width = 1 ∧
       get_diff_tristate ⟨"p", 3, .oe, 2⟩ pPortC nPortC [] false = .ok st ∧
       st.submodules.all
         (fun s => !(isBufEntry s) || s.2.ports.contains ("i_T", tv)) = true) ∧
    (∃ st1 tri st tv,
       xdr_buffer St.empty ⟨"p", 3, .io, 2⟩ false false = .ok (st1, tri) ∧
       tri.t = some tv ∧
       tv.width = 1 ∧
       get_diff_input_output ⟨"p", 3, .io, 2⟩ pPortC nPortC [] false = .ok st ∧
       st.submodules.all
         (fun s => !(isBufEntry s) || s.2.ports.contains ("i_T", tv)) = true)) :=
  ⟨by decide, c10_shared_enable "p" 3 portC pPortC nPortC [] false 2 (by decide)⟩
end X7
